import Mathlib

/-!
Verification development for the euphony incremental transcoding tool.

The definitions below shallowly embed the change-detection engine, the
work-packet hierarchy, the concurrent scheduler and the queue/progress state
model of the repository.  Rust functions returning `Result` become Lean
functions returning `Except`; methods taking `&mut self` become explicit
state-passing functions returning the updated value alongside the result.
Filesystem interaction performed by an album work packet (`LibraryMeta::load`,
`LibraryMeta::generate`, `LibraryMeta::save`) is abstracted into an `AlbumFs`
record holding the outcome each of those calls would produce for the album
directory in question; the embedded code consults those outcomes exactly where
the source performs the corresponding call.
-/

namespace Euphony

/-- Errors of kind `std::io::Error` are modelled by their message text. -/
abbrev IoError := String

/-- Modelled from the spec: `FileFingerprint` (the `meta.rs` module defining
`LibraryMeta` is not part of the provided sources).  A comparable signature of
one tracked file: size plus modification time. -/
structure FileFingerprint where
  size : Nat
  modificationTime : Nat
deriving DecidableEq, Repr

/-- Modelled from the spec: `LibraryMeta` (source module `meta.rs` missing), an
ordered mapping from relative file path to fingerprint. -/
structure LibraryMeta where
  files : List (String × FileFingerprint)
deriving DecidableEq, Repr

/-- Whether the snapshot tracks the given relative path. -/
def LibraryMeta.hasFile (m : LibraryMeta) (path : String) : Bool :=
  m.files.any (fun e => e.1 == path)

/-- Fingerprint recorded for the given relative path, if tracked. -/
def LibraryMeta.fingerprintOf (m : LibraryMeta) (path : String) : Option FileFingerprint :=
  (m.files.find? (fun e => e.1 == path)).map Prod.snd

/-- Modelled from the spec: the structural diff between a saved and a fresh
snapshot, classifying each path as added, removed or changed. -/
structure LibraryMetaDiff where
  added : List String
  removed : List String
  changed : List String
deriving DecidableEq, Repr

/-- Modelled from the spec: `diff(saved, fresh)` - added means fresh only,
removed means saved only, changed means present in both with differing
fingerprints. -/
def LibraryMeta.diff (saved fresh : LibraryMeta) : LibraryMetaDiff where
  added := (fresh.files.filter (fun e => !(saved.hasFile e.1))).map Prod.fst
  removed := (saved.files.filter (fun e => !(fresh.hasFile e.1))).map Prod.fst
  changed := (saved.files.filter (fun e =>
    match fresh.fingerprintOf e.1 with
    | some fp => fp != e.2
    | none => false)).map Prod.fst

/-- Modelled from the spec: `has_any_changes()` is true iff any of the three
sets is non-empty. -/
def LibraryMetaDiff.has_any_changes (d : LibraryMetaDiff) : Bool :=
  !d.added.isEmpty || !d.removed.isEmpty || !d.changed.isEmpty

/-- Modelled from the spec: `CachedValue<T>` (source module `cached.rs`
missing) - a per-instance write-once-then-read memoization cell. -/
structure CachedValue (α : Type) where
  value : Option α
deriving DecidableEq, Repr

/-- Fresh, unpopulated cell. -/
def CachedValue.new_empty {α : Type} : CachedValue α := ⟨none⟩

/-- Whether the cell has been populated. -/
def CachedValue.is_cached {α : Type} (c : CachedValue α) : Bool := c.value.isSome

/-- Populate the cell. -/
def CachedValue.set {α : Type} (_c : CachedValue α) (v : α) : CachedValue α := ⟨some v⟩

/-- Read the cell; the source only calls this on populated cells. -/
def CachedValue.get {α : Type} (c : CachedValue α) : Option α := c.value

/-- Modelled from the spec: `AlbumDirectoryInfo` (source module
`directories.rs` missing) - album identity as used by `album.rs`. -/
structure AlbumDirectoryInfo where
  library_path : String
  artist_name : String
  album_title : String
deriving DecidableEq, Repr

/-- Outcomes of the filesystem operations an album work packet can perform on
its album directory: `LibraryMeta::load`, `LibraryMeta::generate` and
`LibraryMeta::save`. -/
structure AlbumFs where
  loadResult : Except IoError (Option LibraryMeta)
  generateResult : Except IoError LibraryMeta
  saveResult : Except IoError Unit

/-- `AlbumWorkPacket` from `src/src/commands/transcode/packets/album.rs`:
album identity plus the two per-instance caches. -/
structure AlbumWorkPacket where
  album_info : AlbumDirectoryInfo
  cached_saved_meta : CachedValue (Option LibraryMeta)
  cached_fresh_meta : CachedValue LibraryMeta

/-- `AlbumWorkPacket::from_album_info`: both caches start empty. -/
def AlbumWorkPacket.from_album_info (info : AlbumDirectoryInfo) : AlbumWorkPacket :=
  { album_info := info
    cached_saved_meta := CachedValue.new_empty
    cached_fresh_meta := CachedValue.new_empty }

/-- `AlbumWorkPacket::get_saved_meta`: return the cached saved snapshot if
populated, otherwise load it from the sidecar file (here: `fs.loadResult`) and
populate the cache. -/
def AlbumWorkPacket.get_saved_meta (p : AlbumWorkPacket) (fs : AlbumFs) :
    Except IoError (Option LibraryMeta × AlbumWorkPacket) :=
  if p.cached_saved_meta.is_cached then
    match p.cached_saved_meta.get with
    | some (some meta) => .ok (some meta, p)
    | some none => .ok (none, p)
    | none => .ok (none, p)
  else
    match fs.loadResult with
    | .error e => .error e
    | .ok saved_meta =>
      .ok (saved_meta, { p with cached_saved_meta := p.cached_saved_meta.set saved_meta })

/-- `AlbumWorkPacket::get_fresh_meta`: return the cached fresh snapshot if
populated, otherwise generate it (here: `fs.generateResult`) and populate the
cache. -/
def AlbumWorkPacket.get_fresh_meta (p : AlbumWorkPacket) (fs : AlbumFs) :
    Except IoError (LibraryMeta × AlbumWorkPacket) :=
  if p.cached_fresh_meta.is_cached then
    match p.cached_fresh_meta.get with
    | some meta => .ok (meta, p)
    | none => .error "uncached get"
  else
    match fs.generateResult with
    | .error e => .error e
    | .ok fresh_meta =>
      .ok (fresh_meta, { p with cached_fresh_meta := p.cached_fresh_meta.set fresh_meta })

/-- `AlbumWorkPacket::needs_processing`: true when no saved snapshot exists,
otherwise the diff between saved and fresh must show changes. -/
def AlbumWorkPacket.needs_processing (p : AlbumWorkPacket) (fs : AlbumFs) :
    Except IoError (Bool × AlbumWorkPacket) :=
  match p.get_saved_meta fs with
  | .error e => .error e
  | .ok (saved_meta, p₁) =>
    match saved_meta with
    | none => .ok (true, p₁)
    | some saved =>
      match p₁.get_fresh_meta fs with
      | .error e => .error e
      | .ok (fresh, p₂) => .ok ((saved.diff fresh).has_any_changes, p₂)

/-- Modelled from the spec: `FileWorkPacket` (source module
`packets/file.rs` missing) - one file's pending action with enough context to
execute independently. -/
structure FileWorkPacket where
  source_file_name : String
  album_info : AlbumDirectoryInfo
deriving DecidableEq, Repr

/-- Modelled from the spec: `FileWorkPacket::new` (source module missing); the
spec gives no failure mode for constructing a packet from a fresh snapshot
entry, so construction succeeds. -/
def FileWorkPacket.new (file : String) (info : AlbumDirectoryInfo) :
    Except IoError FileWorkPacket :=
  .ok ⟨file, info⟩

/-- The packet-construction loop of `AlbumWorkPacket::get_work_packets`:
build one `FileWorkPacket` per fresh snapshot entry, propagating construction
errors. -/
def buildFilePackets (files : List (String × FileFingerprint)) (info : AlbumDirectoryInfo) :
    Except IoError (List FileWorkPacket) :=
  match files with
  | [] => .ok []
  | (fresh_file, _) :: rest =>
    match FileWorkPacket.new fresh_file info with
    | .error e => .error e
    | .ok packet =>
      match buildFilePackets rest info with
      | .error e => .error e
      | .ok packets => .ok (packet :: packets)

/-- `AlbumWorkPacket::get_work_packets`: empty when `needs_processing` is
false, otherwise one packet per entry of the fresh snapshot. -/
def AlbumWorkPacket.get_work_packets (p : AlbumWorkPacket) (fs : AlbumFs) :
    Except IoError (List FileWorkPacket × AlbumWorkPacket) :=
  match p.needs_processing fs with
  | .error e => .error e
  | .ok (needs, p₁) =>
    if !needs then .ok ([], p₁)
    else
      match p₁.get_fresh_meta fs with
      | .error e => .error e
      | .ok (fresh_meta, p₂) =>
        match buildFilePackets fresh_meta.files p₂.album_info with
        | .error e => .error e
        | .ok file_packets => .ok (file_packets, p₂)

/-- `AlbumWorkPacket::save_fresh_meta`: obtain the (cached) fresh snapshot and
persist it to the sidecar file (outcome `fs.saveResult`). -/
def AlbumWorkPacket.save_fresh_meta (p : AlbumWorkPacket) (fs : AlbumFs)
    (_allow_overwrite : Bool) : Except IoError AlbumWorkPacket :=
  match p.get_fresh_meta fs with
  | .error e => .error e
  | .ok (_fresh_meta, p₁) =>
    match fs.saveResult with
    | .error e => .error e
    | .ok _ => .ok p₁

/-- Modelled from the spec: `AlbumWorkPacket::get_total_track_count` (not
present in the provided `album.rs`; `cmd_transcode_album` calls it) - the
number of tracked files in the fresh snapshot. -/
def AlbumWorkPacket.get_total_track_count (p : AlbumWorkPacket) (fs : AlbumFs) :
    Except IoError (Nat × AlbumWorkPacket) :=
  match p.get_fresh_meta fs with
  | .error e => .error e
  | .ok (fresh_meta, p₁) => .ok (fresh_meta.files.length, p₁)

/-!
## Concurrent scheduler (`src/src/commands/transcode/mod.rs`)

`process_file_packets_in_threadpool` dispatches one job per file packet into a
`rayon` scope, each job sending its error (if any) into an mpsc channel; the
scope call returns only after every spawned job has finished, and the channel
is drained afterwards.  The embedding sequentializes this: the outcome of
`FileWorkPacket::get_file_name` and `FileWorkPacket::process` (both from the
missing `packets/file.rs` module) are abstracted into a `FileJobEnv`, the
dispatch loop is folded into `dispatch_file_packets`, and the drained channel
content is the per-job errors of the spawned jobs followed by the dispatch
error, one fixed serialization of the channel interleavings (the claims below
depend only on which errors are collected, not on their order).
-/

/-- Abstract outcomes of the file-level operations performed by worker jobs:
`fileNameOf` models `FileWorkPacket::get_file_name`, `processResultOf` models
`FileWorkPacket::process` for the run's fixed configuration and filesystem. -/
structure FileJobEnv where
  fileNameOf : FileWorkPacket → Except IoError String
  processResultOf : FileWorkPacket → Except IoError Unit

/-- The dispatch loop inside the `thread_pool.scope` closure: returns the
spawned jobs in order and the errors sent directly by the dispatch loop.  A
failing `get_file_name` sends the error and returns from the closure, so no
later packet is spawned. -/
def dispatch_file_packets (env : FileJobEnv) :
    List FileWorkPacket → List FileWorkPacket × List IoError
  | [] => ([], [])
  | packet :: rest =>
    match env.fileNameOf packet with
    | .error e => ([], [e])
    | .ok _ =>
      let (spawned, errs) := dispatch_file_packets env rest
      (packet :: spawned, errs)

/-- Errors reported through the channel by the spawned jobs: each spawned job
runs `process` and sends its error, if any. -/
def job_errors (env : FileJobEnv) (spawned : List FileWorkPacket) : List IoError :=
  spawned.filterMap (fun packet =>
    match env.processResultOf packet with
    | .error e => some e
    | .ok _ => none)

/-- `process_file_packets_in_threadpool`: empty batches return `Ok`
immediately; otherwise the scope spawns jobs, waits for all of them, and the
drained channel decides the result. -/
def process_file_packets_in_threadpool (env : FileJobEnv)
    (file_packets : List FileWorkPacket) : Except (List IoError) Unit :=
  if file_packets.length = 0 then .ok ()
  else
    let (spawned, dispatch_errs) := dispatch_file_packets env file_packets
    let collected := job_errors env spawned ++ dispatch_errs
    if collected.length = 0 then .ok () else .error collected

/-- Observable per-album events of the multi-album processing loop in
`cmd_transcode_all` / `cmd_transcode_library`. -/
inductive RunEvent
  | got_work_packets (albumId : Nat) (fileCount : Nat)
  | batch_ok (albumId : Nat)
  | saved_meta (albumId : Nat)
deriving DecidableEq, Repr

/-- Album the event belongs to. -/
def RunEvent.albumId : RunEvent → Nat
  | .got_work_packets i _ => i
  | .batch_ok i => i
  | .saved_meta i => i

/-- Ways the processing loop aborts: a `?`-propagated `get_work_packets`
error, a failed batch reported through `print_error_vector_and_return_err`, or
a `?`-propagated `save_fresh_meta` error. -/
inductive RunFailure
  | packets_error (e : IoError)
  | batch_failed (errs : List IoError)
  | save_error (e : IoError)
deriving DecidableEq, Repr

/-- One album of a run: an identifier for the event trace, its work packet and
the filesystem outcomes for its directory. -/
structure AlbumJob where
  id : Nat
  packet : AlbumWorkPacket
  fs : AlbumFs

/-- Body of the per-album iteration in `cmd_transcode_all` (and
`cmd_transcode_library`): get the work packets, process them in the pool, and
only on batch success call `save_fresh_meta`. -/
def run_album (env : FileJobEnv) (job : AlbumJob) : List RunEvent × Option RunFailure :=
  match job.packet.get_work_packets job.fs with
  | .error e => ([], some (.packets_error e))
  | .ok (file_packets, p₁) =>
    let events := [RunEvent.got_work_packets job.id file_packets.length]
    match process_file_packets_in_threadpool env file_packets with
    | .error errs => (events, some (.batch_failed errs))
    | .ok _ =>
      match p₁.save_fresh_meta job.fs true with
      | .error e => (events ++ [.batch_ok job.id], some (.save_error e))
      | .ok _ => (events ++ [.batch_ok job.id, .saved_meta job.id], none)

/-- The inner album loop: albums are processed strictly sequentially and a
failure aborts the rest of the loop. -/
def run_albums (env : FileJobEnv) : List AlbumJob → List RunEvent × Option RunFailure
  | [] => ([], none)
  | job :: rest =>
    match run_album env job with
    | (events, some failure) => (events, some failure)
    | (events, none) =>
      let (laterEvents, result) := run_albums env rest
      (events ++ laterEvents, result)

/-- The outer library loop of `cmd_transcode_all`: libraries are processed
strictly sequentially and a failure aborts the rest of the run. -/
def run_libraries (env : FileJobEnv) :
    List (List AlbumJob) → List RunEvent × Option RunFailure
  | [] => ([], none)
  | lib :: rest =>
    match run_albums env lib with
    | (events, some failure) => (events, some failure)
    | (events, none) =>
      let (laterEvents, result) := run_libraries env rest
      (events ++ laterEvents, result)

/-- Modelled from the spec: `LibraryWorkPacket::get_albums_in_need_of_processing`
(source module `packets/library.rs` missing) - filter the album packets via
`needs_processing`, keeping the updated (cache-populated) packets. -/
def get_albums_in_need_of_processing :
    List AlbumJob → Except IoError (List AlbumJob)
  | [] => .ok []
  | job :: rest =>
    match job.packet.needs_processing job.fs with
    | .error e => .error e
    | .ok (needs, p₁) =>
      match get_albums_in_need_of_processing rest with
      | .error e => .error e
      | .ok filtered =>
        if needs then .ok ({ job with packet := p₁ } :: filtered)
        else .ok filtered

/-- Result of the single-album command `cmd_transcode_album`: its event trace,
whether it printed the already-up-to-date message, and how it ended. -/
structure SingleAlbumRun where
  events : List RunEvent
  reported_up_to_date : Bool
  result : Option RunFailure
deriving DecidableEq, Repr

/-- `cmd_transcode_album`: count tracks, get the work packets, and return
early - before any pool or persistence work - when there are none; otherwise
process the batch and persist on success. -/
def cmd_transcode_album_run (env : FileJobEnv) (job : AlbumJob) : SingleAlbumRun :=
  match job.packet.get_total_track_count job.fs with
  | .error e => ⟨[], false, some (.packets_error e)⟩
  | .ok (_total, p₁) =>
    match p₁.get_work_packets job.fs with
    | .error e => ⟨[], false, some (.packets_error e)⟩
    | .ok (file_packets, p₂) =>
      if file_packets.length = 0 then
        ⟨[.got_work_packets job.id 0], true, none⟩
      else
        let events := [RunEvent.got_work_packets job.id file_packets.length]
        match process_file_packets_in_threadpool env file_packets with
        | .error errs => ⟨events, false, some (.batch_failed errs)⟩
        | .ok _ =>
          match p₂.save_fresh_meta job.fs true with
          | .error e => ⟨events, false, some (.save_error e)⟩
          | .ok _ => ⟨events ++ [.saved_meta job.id], false, none⟩

/-!
## Queue/progress state model
(`src/src/console/backends/fancy/terminal.rs`, `TranscodeBackend for
TUITerminalBackend`)

The backend keeps a `TerminalUIState` behind one mutex; every queue operation
locks it, fails when `queue_state` is `None` (queue not begun), looks the item
up by ID, and otherwise applies its mutation.  The inner `QueueState` /
`QueueItem` types live in the missing `console/backends/shared` module and are
modelled from the spec below.  Methods taking `&mut self` become state-passing
functions; errors are the miette message strings.
-/

/-- The three disjoint queues. -/
inductive QueueType
  | library
  | album
  | file
deriving DecidableEq, Repr

/-- Modelled from the spec: the optional finished-result of a queue item. -/
structure QueueItemFinishedState where
  is_ok : Bool
deriving DecidableEq, Repr

/-- Modelled from the spec: a queue item with its unique ID, label, queue
type, in-progress flag and optional finished-result (the fields `terminal.rs`
reads and writes). -/
structure QueueItem where
  id : Nat
  content : String
  item_type : QueueType
  is_active : Bool
  finished_state : Option QueueItemFinishedState
deriving DecidableEq, Repr

/-- Modelled from the spec: `QueueItem::new` - initial state `Pending`
(inactive, no finished-result); the ID is assigned by the caller's monotonic
counter. -/
def QueueItem.new (content : String) (item_type : QueueType) (id : Nat) : QueueItem :=
  { id := id
    content := content
    item_type := item_type
    is_active := false
    finished_state := none }

/-- The derived lifecycle state `Pending / InProgress / Finished`. -/
inductive QueueItemState
  | pending
  | inProgress
  | finished
deriving DecidableEq, Repr

/-- Modelled from the spec: an item is finished once it has a finished-result,
in progress while active, and pending otherwise. -/
def QueueItem.get_state (item : QueueItem) : QueueItemState :=
  if item.finished_state.isSome then .finished
  else if item.is_active then .inProgress
  else .pending

/-- Modelled from the spec: `QueueState` - the three queues held together. -/
structure QueueState where
  library_items : List QueueItem
  album_items : List QueueItem
  file_items : List QueueItem
deriving DecidableEq, Repr

/-- Empty queue state, as installed by `queue_begin`. -/
def QueueState.empty : QueueState := ⟨[], [], []⟩

/-- First item with the given ID in a single queue. -/
def listFindById (items : List QueueItem) (id : Nat) : Option QueueItem :=
  items.find? (fun item => item.id == id)

/-- Apply a mutation to every item with the given ID in a single queue. -/
def listUpdateById (items : List QueueItem) (id : Nat)
    (f : QueueItem → QueueItem) : List QueueItem :=
  items.map (fun item => if item.id == id then f item else item)

/-- Modelled from the spec: `QueueState::find_item_by_id` searches the three
queues. -/
def QueueState.find_item_by_id (q : QueueState) (id : Nat) : Option QueueItem :=
  listFindById (q.library_items ++ q.album_items ++ q.file_items) id

/-- Modelled from the spec: mutate the item with the given ID, or report that
no such item exists. -/
def QueueState.update_item_by_id (q : QueueState) (id : Nat)
    (f : QueueItem → QueueItem) : Option QueueState :=
  match q.find_item_by_id id with
  | none => none
  | some _ =>
    some
      { library_items := listUpdateById q.library_items id f
        album_items := listUpdateById q.album_items id f
        file_items := listUpdateById q.file_items id f }

/-- Modelled from the spec: `QueueState::add_item` appends the item to the
queue of its type. -/
def QueueState.add_item (q : QueueState) (item : QueueItem) : QueueState :=
  match item.item_type with
  | .library => { q with library_items := q.library_items ++ [item] }
  | .album => { q with album_items := q.album_items ++ [item] }
  | .file => { q with file_items := q.file_items ++ [item] }

/-- Modelled from the spec: `QueueState::remove_item_by_id` fails when the ID
is unknown. -/
def QueueState.remove_item_by_id (q : QueueState) (id : Nat) :
    Except String QueueState :=
  match q.find_item_by_id id with
  | none => .error "No such queue item."
  | some _ =>
    .ok
      { library_items := q.library_items.filter (fun item => !(item.id == id))
        album_items := q.album_items.filter (fun item => !(item.id == id))
        file_items := q.file_items.filter (fun item => !(item.id == id)) }

/-- Modelled from the spec: `QueueState::clear_queue_by_type` empties one
queue. -/
def QueueState.clear_queue_by_type (q : QueueState) (queue_type : QueueType) :
    QueueState :=
  match queue_type with
  | .library => { q with library_items := [] }
  | .album => { q with album_items := [] }
  | .file => { q with file_items := [] }

/-- `ProgressState` of the shared module: `current`/`total` counters. -/
structure ProgressState where
  current : Nat
  total : Nat
deriving DecidableEq, Repr

/-- The queue/progress portion of `TerminalUIState`, plus the monotonic ID
counter of the modelled `QueueItem::new`. -/
structure TerminalUIState where
  queue_state : Option QueueState
  progress : Option ProgressState
  next_queue_item_id : Nat
deriving DecidableEq, Repr

/-- `TUITerminalBackend::queue_begin`: install a fresh queue state. -/
def TerminalUIState.queue_begin (s : TerminalUIState) : TerminalUIState :=
  { s with queue_state := some QueueState.empty }

/-- `TUITerminalBackend::queue_end`: disable the queue. -/
def TerminalUIState.queue_end (s : TerminalUIState) : TerminalUIState :=
  { s with queue_state := none }

/-- `TUITerminalBackend::queue_item_add`: fails when the queue is disabled,
otherwise creates a new pending item and returns its ID. -/
def TerminalUIState.queue_item_add (s : TerminalUIState) (item : String)
    (item_type : QueueType) : Except String (Nat × TerminalUIState) :=
  match s.queue_state with
  | none => .error "Queue is currently disabled, cannot add item."
  | some q =>
    let queue_item := QueueItem.new item item_type s.next_queue_item_id
    .ok (queue_item.id,
      { s with
        queue_state := some (q.add_item queue_item)
        next_queue_item_id := s.next_queue_item_id + 1 })

/-- The item mutation performed by `queue_item_start`: `item.is_active = true`. -/
def startMutation : QueueItem → QueueItem :=
  fun item => { item with is_active := true }

/-- The item mutation performed by `queue_item_finish`: `item.is_active =
false; item.set_finished_state(QueueItemFinishedState { is_ok: was_ok })`. -/
def finishMutation (was_ok : Bool) : QueueItem → QueueItem :=
  fun item => { item with is_active := false, finished_state := some ⟨was_ok⟩ }

/-- `TUITerminalBackend::queue_item_start`: fails when the queue is disabled
or the ID is unknown, otherwise marks the item active. -/
def TerminalUIState.queue_item_start (s : TerminalUIState) (item_id : Nat) :
    Except String TerminalUIState :=
  match s.queue_state with
  | none => .error "Queue is currently disabled, cannot set item as active."
  | some q =>
    match q.update_item_by_id item_id startMutation with
    | some q₁ => .ok { s with queue_state := some q₁ }
    | none => .error "No such queue item."

/-- `TUITerminalBackend::queue_item_finish`: fails when the queue is disabled
or the ID is unknown, otherwise deactivates the item and records the
finished-result - without checking the item's current state. -/
def TerminalUIState.queue_item_finish (s : TerminalUIState) (item_id : Nat)
    (was_ok : Bool) : Except String TerminalUIState :=
  match s.queue_state with
  | none => .error "Queue is currently disabled, cannot set item as active."
  | some q =>
    match q.update_item_by_id item_id (finishMutation was_ok) with
    | some q₁ => .ok { s with queue_state := some q₁ }
    | none => .error "No such queue item."

/-- `TUITerminalBackend::queue_item_modify`: fails when the queue is disabled
or the ID is unknown, otherwise applies the caller's mutation. -/
def TerminalUIState.queue_item_modify (s : TerminalUIState) (item_id : Nat)
    (f : QueueItem → QueueItem) : Except String TerminalUIState :=
  match s.queue_state with
  | none => .error "Queue is currently disabled, cannot set item as active."
  | some q =>
    match q.update_item_by_id item_id f with
    | some q₁ => .ok { s with queue_state := some q₁ }
    | none => .error "No such queue item."

/-- `TUITerminalBackend::queue_item_remove`: fails when the queue is disabled
or the ID is unknown. -/
def TerminalUIState.queue_item_remove (s : TerminalUIState) (item_id : Nat) :
    Except String TerminalUIState :=
  match s.queue_state with
  | none => .error "Queue is currently disabled, cannot set item as active."
  | some q =>
    match q.remove_item_by_id item_id with
    | .ok q₁ => .ok { s with queue_state := some q₁ }
    | .error e => .error e

/-- `TUITerminalBackend::queue_clear`: fails only when the queue is
disabled. -/
def TerminalUIState.queue_clear (s : TerminalUIState) (queue_type : QueueType) :
    Except String TerminalUIState :=
  match s.queue_state with
  | some q => .ok { s with queue_state := some (q.clear_queue_by_type queue_type) }
  | none => .error "Queue is currently disabled, cannot clear."

/-!
## Configuration (`src/euphony_configuration/src/core/aggregated_library.rs`)

`UnresolvedAggregatedLibraryConfiguration::try_resolve` first canonicalizes
the aggregated library path (placeholder replacement, `dunce::canonicalize`
and the UTF-8 check are external and abstracted into parameters) and then
rejects a zero `transcode_threads` before producing the resolved
configuration. -/

/-- `AggregatedLibraryConfigurationError`. -/
inductive AggregatedLibraryConfigurationError
  | zeroTranscodeThreads
  | failedToCanonicalizePath (original_path final_path error : String)
  | pathIsNotUtf8 (path : String)
deriving DecidableEq, Repr

/-- `UnresolvedAggregatedLibraryConfiguration`. -/
structure UnresolvedAggregatedLibraryConfiguration where
  path : String
  transcode_threads : Nat
  failure_max_retries : Nat
  failure_delay_seconds : Nat
deriving DecidableEq, Repr

/-- `AggregatedLibraryConfiguration` (the resolved form). -/
structure AggregatedLibraryConfiguration where
  path : String
  transcode_threads : Nat
  failure_max_retries : Nat
  failure_delay_seconds : Nat
deriving DecidableEq, Repr

/-- `UnresolvedAggregatedLibraryConfiguration::try_resolve`.
`replacePlaceholders` models `replace_placeholders_in_str` with the paths
configuration's placeholders, `canonicalize` models `dunce::canonicalize`, and
`toUtf8` models the `Utf8PathBuf` conversion. -/
def UnresolvedAggregatedLibraryConfiguration.try_resolve
    (self : UnresolvedAggregatedLibraryConfiguration)
    (replacePlaceholders : String → String)
    (canonicalize : String → Except String String)
    (toUtf8 : String → Option String) :
    Except AggregatedLibraryConfigurationError AggregatedLibraryConfiguration :=
  let final_aggregated_library_path := replacePlaceholders self.path
  match canonicalize final_aggregated_library_path with
  | .error io_error =>
    .error (.failedToCanonicalizePath self.path final_aggregated_library_path io_error)
  | .ok canonical_path =>
    match toUtf8 canonical_path with
    | none => .error (.pathIsNotUtf8 canonical_path)
    | some canonical_aggregated_library_path =>
      if self.transcode_threads = 0 then
        .error .zeroTranscodeThreads
      else
        .ok
          { path := canonical_aggregated_library_path
            transcode_threads := self.transcode_threads
            failure_max_retries := self.failure_max_retries
            failure_delay_seconds := self.failure_delay_seconds }

/-- The slice of the main crate's `Config` the transcode scheduler reads. -/
structure Config where
  aggregated_library : AggregatedLibraryConfiguration
deriving DecidableEq, Repr

/-- A `rayon` thread pool, observable through the thread count it was built
with. -/
structure ThreadPool where
  num_threads : Nat
deriving DecidableEq, Repr

/-- `build_transcode_thread_pool`: the pool is sized by the configured
`transcode_threads` value. -/
def build_transcode_thread_pool (config : Config) : ThreadPool :=
  { num_threads := config.aggregated_library.transcode_threads }

/-!
## Worker closure order of operations

The closure spawned per file packet in `process_file_packets_in_threadpool`
executes, in program order: the blocking `file_packet.process(config)` call,
then acquisition of the shared progress-bar mutex, the progress increment and
message update under the lock, the conditional error send, and the implicit
release of the `MutexGuard` when the closure ends.  `worker_closure_trace`
records that program order. -/

/-- Actions a worker thread performs, in the order the closure body lists
them. -/
inductive WorkerAction
  | processFilePacket
  | lockAcquire
  | progressBarInc
  | progressBarSetMessage
  | sendError
  | lockRelease
deriving DecidableEq, Repr

/-- Program-order trace of the worker closure body, parametrized by whether
`process` returned an error (in which case the error send happens before the
guard is dropped). -/
def worker_closure_trace (work_failed : Bool) : List WorkerAction :=
  [.processFilePacket, .lockAcquire, .progressBarInc, .progressBarSetMessage]
    ++ (if work_failed then [.sendError] else [])
    ++ [.lockRelease]

/-!
## Concrete sample data used by the witnesses and counterexamples
-/

/-- Sample album identity. -/
def sampleInfo : AlbumDirectoryInfo :=
  { library_path := "/library", artist_name := "Artist", album_title := "Album" }

/-- Album directory with no sidecar snapshot and an unreadable directory: the
fresh snapshot cannot even be generated. -/
def firstRunFs : AlbumFs :=
  { loadResult := .ok none
    generateResult := .error "scan failed"
    saveResult := .ok () }

/-- Same sidecar state as `firstRunFs` but with a readable directory. -/
def firstRunReadableFs : AlbumFs :=
  { loadResult := .ok none
    generateResult := .ok ⟨[("track.flac", ⟨44, 7⟩)]⟩
    saveResult := .ok () }

/-- Sample work packet with empty caches. -/
def samplePacket : AlbumWorkPacket := AlbumWorkPacket.from_album_info sampleInfo

/-- `samplePacket` after its saved-meta cache was populated with "no sidecar
present". -/
def samplePacketNoSaved : AlbumWorkPacket :=
  { album_info := sampleInfo
    cached_saved_meta := ⟨some none⟩
    cached_fresh_meta := ⟨none⟩ }

/-- Three-file saved snapshot. -/
def threeFileSaved : LibraryMeta :=
  ⟨[("a.flac", ⟨10, 1⟩), ("b.flac", ⟨20, 2⟩), ("c.flac", ⟨30, 3⟩)]⟩

/-- The same three files, the first with a changed size. -/
def threeFileFresh : LibraryMeta :=
  ⟨[("a.flac", ⟨11, 1⟩), ("b.flac", ⟨20, 2⟩), ("c.flac", ⟨30, 3⟩)]⟩

/-- Album directory holding `threeFileSaved` in the sidecar while the files on
disk fingerprint to `threeFileFresh`. -/
def threeFileFs : AlbumFs :=
  { loadResult := .ok (some threeFileSaved)
    generateResult := .ok threeFileFresh
    saveResult := .ok () }

/-- `samplePacket` after both caches were populated from `threeFileFs`. -/
def threeFilePacketCached : AlbumWorkPacket :=
  { album_info := sampleInfo
    cached_saved_meta := ⟨some (some threeFileSaved)⟩
    cached_fresh_meta := ⟨some threeFileFresh⟩ }

/-- File-job environment in which every file name resolves and every job
succeeds. -/
def allOkJobEnv : FileJobEnv :=
  { fileNameOf := fun packet => .ok packet.source_file_name
    processResultOf := fun _ => .ok () }

/-- File-job environment in which no file name resolves (while every job
would succeed if it ran). -/
def nameFailJobEnv : FileJobEnv :=
  { fileNameOf := fun _ => .error "could not get file name"
    processResultOf := fun _ => .ok () }

/-- A sample file packet. -/
def sampleFilePacket : FileWorkPacket :=
  { source_file_name := "a.flac", album_info := sampleInfo }

/-- Album directory whose sidecar tracks one file while the directory itself
no longer holds any tracked file: `needs_processing` is true, yet the fresh
snapshot yields zero file work packets. -/
def allRemovedFs : AlbumFs :=
  { loadResult := .ok (some ⟨[("gone.flac", ⟨5, 5⟩)]⟩)
    generateResult := .ok ⟨[]⟩
    saveResult := .ok () }

/-- Album job over `allRemovedFs` with a fresh packet. -/
def allRemovedJob : AlbumJob :=
  { id := 7, packet := AlbumWorkPacket.from_album_info sampleInfo, fs := allRemovedFs }

/-- Sample resolvable configuration with two transcode threads. -/
def sampleUnresolvedConfig : UnresolvedAggregatedLibraryConfiguration :=
  { path := "/out", transcode_threads := 2, failure_max_retries := 3, failure_delay_seconds := 1 }

/-- `samplePacket` after only its saved-meta cache was populated from
`threeFileFs`. -/
def threeFilePacketSavedOnly : AlbumWorkPacket :=
  { album_info := sampleInfo
    cached_saved_meta := ⟨some (some threeFileSaved)⟩
    cached_fresh_meta := ⟨none⟩ }

/-- File packet whose job fails. -/
def pktFailingJob : FileWorkPacket := { source_file_name := "a.flac", album_info := sampleInfo }

/-- File packet whose display name cannot be resolved. -/
def pktBadName : FileWorkPacket := { source_file_name := "bad.flac", album_info := sampleInfo }

/-- File packet after the bad one; never submitted. -/
def pktNeverRun : FileWorkPacket := { source_file_name := "c.flac", album_info := sampleInfo }

/-- Environment for the dispatch-abort scenario: `pktBadName` has no
resolvable file name, `pktFailingJob` fails while processing, everything else
succeeds. -/
def dispatchAbortEnv : FileJobEnv :=
  { fileNameOf := fun packet =>
      if packet.source_file_name = "bad.flac" then .error "could not get file name"
      else .ok packet.source_file_name
    processResultOf := fun packet =>
      if packet.source_file_name = "a.flac" then .error "job failed"
      else .ok () }

/-- A packet's caches agree with the filesystem they were (or would be)
populated from: whatever a cache holds is exactly what the corresponding
filesystem operation returns.  Fresh packets satisfy it vacuously, and every
cache write in `album.rs` stores precisely the operation's result, so every
packet the program constructs over an unchanged filesystem satisfies it. -/
def CachesConsistent (p : AlbumWorkPacket) (fs : AlbumFs) : Prop :=
  (∀ v, p.cached_saved_meta.value = some v → fs.loadResult = .ok v) ∧
  (∀ m, p.cached_fresh_meta.value = some m → fs.generateResult = .ok m)

/-- The value `needs_processing` computes, as a function of the filesystem
alone (used to compare runs over the same filesystem). -/
def needsValueSpec (fs : AlbumFs) : Except IoError Bool :=
  match fs.loadResult with
  | .error e => .error e
  | .ok none => .ok true
  | .ok (some saved) =>
    match fs.generateResult with
    | .error e => .error e
    | .ok fresh => .ok (saved.diff fresh).has_any_changes

/-- The value `get_work_packets` computes, as a function of the filesystem
and the album identity alone. -/
def workPacketsValueSpec (fs : AlbumFs) (info : AlbumDirectoryInfo) :
    Except IoError (List FileWorkPacket) :=
  match needsValueSpec fs with
  | .error e => .error e
  | .ok false => .ok []
  | .ok true =>
    match fs.generateResult with
    | .error e => .error e
    | .ok fresh => .ok (fresh.files.map (fun f => ⟨f.1, info⟩))

/-- The packet of `allRemovedJob` after `get_total_track_count` populated the
fresh cache. -/
def allRemovedFreshCached : AlbumWorkPacket :=
  { album_info := sampleInfo
    cached_saved_meta := ⟨none⟩
    cached_fresh_meta := ⟨some ⟨[]⟩⟩ }

/-- The packet of `allRemovedJob` after both caches were populated. -/
def allRemovedBothCached : AlbumWorkPacket :=
  { album_info := sampleInfo
    cached_saved_meta := ⟨some (some ⟨[("gone.flac", ⟨5, 5⟩)]⟩)⟩
    cached_fresh_meta := ⟨some ⟨[]⟩⟩ }

/-- The three file packets produced for `threeFileFs`. -/
def threeFilePackets : List FileWorkPacket :=
  [⟨"a.flac", sampleInfo⟩, ⟨"b.flac", sampleInfo⟩, ⟨"c.flac", sampleInfo⟩]

/-- Album job over `threeFileFs`, used in the failing-batch scenario. -/
def threeFileJob : AlbumJob := { id := 3, packet := samplePacket, fs := threeFileFs }

/-- A pending file queue item with ID 0. -/
def pendingQueueItem : QueueItem := QueueItem.new "X" QueueType.file 0

/-- Queue state holding only `pendingQueueItem`. -/
def pendingQueue : QueueState := ⟨[], [], [pendingQueueItem]⟩

/-- Backend state whose queue has been begun and holds the pending item. -/
def pendingUIState : TerminalUIState :=
  { queue_state := some pendingQueue, progress := none, next_queue_item_id := 1 }

/-!
## Theorems

Helper lemmas come first; each claim's theorem carries a doc comment naming
the claim.
-/

theorem get_saved_meta_load_congr (p : AlbumWorkPacket) (fs fs₂ : AlbumFs)
    (h : fs₂.loadResult = fs.loadResult) :
    p.get_saved_meta fs₂ = p.get_saved_meta fs := by
  unfold AlbumWorkPacket.get_saved_meta
  rw [h]

/-- C1: for every `AlbumWorkPacket`, a successful `needs_processing` call
returns true exactly as dictated by the saved snapshot and the snapshot diff:
when the saved snapshot is absent the result is true - and stays true for any
filesystem agreeing on the sidecar, whatever its fresh snapshot would be - and
when a saved snapshot exists the result is `(saved.diff fresh).has_any_changes`
for the fresh snapshot the packet obtained. -/
theorem needs_processing_characterization
    (p : AlbumWorkPacket) (fs : AlbumFs) (b : Bool) (p₂ : AlbumWorkPacket)
    (h : p.needs_processing fs = .ok (b, p₂)) :
    (∀ p₁, p.get_saved_meta fs = .ok (none, p₁) → b = true) ∧
    (∀ saved p₁ fresh q, p.get_saved_meta fs = .ok (some saved, p₁) →
      p₁.get_fresh_meta fs = .ok (fresh, q) →
      b = (saved.diff fresh).has_any_changes) ∧
    (∀ fs₂ p₁, fs₂.loadResult = fs.loadResult →
      p.get_saved_meta fs = .ok (none, p₁) →
      p.needs_processing fs₂ = .ok (true, p₁)) := by
  refine ⟨?_, ?_, ?_⟩
  · intro p₁ hsaved
    simp only [AlbumWorkPacket.needs_processing, hsaved, Except.ok.injEq,
      Prod.mk.injEq] at h
    exact h.1.symm
  · intro saved p₁ fresh q hsaved hfresh
    simp only [AlbumWorkPacket.needs_processing, hsaved, hfresh, Except.ok.injEq,
      Prod.mk.injEq] at h
    exact h.1.symm
  · intro fs₂ p₁ hload hsaved
    have hsaved₂ : p.get_saved_meta fs₂ = .ok (none, p₁) := by
      rw [get_saved_meta_load_congr p fs fs₂ hload]
      exact hsaved
    simp only [AlbumWorkPacket.needs_processing, hsaved₂]

/-- Witness for C1: on a first run (no sidecar) the decision is true even
over a filesystem whose fresh snapshot differs (here: one where generation
would fail entirely versus one where it succeeds). -/
theorem needs_processing_characterization_witness :
    AlbumFs.loadResult firstRunReadableFs = AlbumFs.loadResult firstRunFs ∧
    samplePacket.needs_processing firstRunReadableFs = .ok (true, samplePacketNoSaved) :=
  ⟨rfl,
    (needs_processing_characterization samplePacket firstRunFs true
      samplePacketNoSaved rfl).2.2 firstRunReadableFs samplePacketNoSaved rfl rfl⟩

theorem buildFilePackets_eq (files : List (String × FileFingerprint))
    (info : AlbumDirectoryInfo) :
    buildFilePackets files info = .ok (files.map (fun f => ⟨f.1, info⟩)) := by
  induction files with
  | nil => rfl
  | cons head tail ih =>
    simp only [buildFilePackets, FileWorkPacket.new, ih, List.map]

/-- C2: `get_work_packets` returns the empty list when `needs_processing` is
false, and otherwise returns exactly one `FileWorkPacket` per entry of the
fresh snapshot (whole-album resubmission), in snapshot order. -/
theorem get_work_packets_whole_album
    (p : AlbumWorkPacket) (fs : AlbumFs) (b : Bool) (p₁ : AlbumWorkPacket)
    (h : p.needs_processing fs = .ok (b, p₁)) :
    (b = false → p.get_work_packets fs = .ok ([], p₁)) ∧
    (∀ fresh p₂, b = true → p₁.get_fresh_meta fs = .ok (fresh, p₂) →
      p.get_work_packets fs =
        .ok (fresh.files.map (fun f => FileWorkPacket.mk f.1 p₂.album_info), p₂) ∧
      (fresh.files.map (fun f => FileWorkPacket.mk f.1 p₂.album_info)).length
        = fresh.files.length) := by
  constructor
  · intro hb
    subst hb
    simp only [AlbumWorkPacket.get_work_packets, h, Bool.not_false, if_pos]
  · intro fresh p₂ hb hfresh
    subst hb
    constructor
    · simp only [AlbumWorkPacket.get_work_packets, h, Bool.not_true,
        Bool.false_eq_true, if_false, hfresh, buildFilePackets_eq]
    · simp only [List.length_map]

/-- Witness for C2: an album with 3 tracked files of which exactly one changed
yields 3 file packets, not 1. -/
theorem get_work_packets_whole_album_witness :
    samplePacket.get_work_packets threeFileFs =
      .ok (threeFileFresh.files.map
        (fun f => FileWorkPacket.mk f.1 threeFilePacketCached.album_info),
        threeFilePacketCached) ∧
    threeFileFresh.files.length = 3 :=
  ⟨((get_work_packets_whole_album samplePacket threeFileFs true
      threeFilePacketCached rfl).2 threeFileFresh threeFilePacketCached rfl rfl).1,
    rfl⟩

/-- C7: a configured transcode thread count of zero never resolves - when the
path canonicalizes it is rejected precisely as the `ZeroTranscodeThreads`
configuration error - and every configuration that does resolve carries the
configured thread count, which is at least 1 and is exactly the size the
transcode thread pool is built with. -/
theorem transcode_threads_validation
    (c : UnresolvedAggregatedLibraryConfiguration)
    (replacePlaceholders : String → String)
    (canonicalize : String → Except String String)
    (toUtf8 : String → Option String) :
    (c.transcode_threads = 0 →
      ∀ r, c.try_resolve replacePlaceholders canonicalize toUtf8 ≠ .ok r) ∧
    (∀ cp u, canonicalize (replacePlaceholders c.path) = .ok cp →
      toUtf8 cp = some u → c.transcode_threads = 0 →
      c.try_resolve replacePlaceholders canonicalize toUtf8 =
        .error .zeroTranscodeThreads) ∧
    (∀ r, c.try_resolve replacePlaceholders canonicalize toUtf8 = .ok r →
      r.transcode_threads = c.transcode_threads ∧
      1 ≤ r.transcode_threads ∧
      (build_transcode_thread_pool ⟨r⟩).num_threads = c.transcode_threads) := by
  refine ⟨?_, ?_, ?_⟩
  · intro hzero r hok
    unfold UnresolvedAggregatedLibraryConfiguration.try_resolve at hok
    rcases hc : canonicalize (replacePlaceholders c.path) with e | cp
    · simp only [hc] at hok
      exact Except.noConfusion hok
    · simp only [hc] at hok
      rcases hu : toUtf8 cp with _ | u
      · simp only [hu] at hok
        exact Except.noConfusion hok
      · simp only [hu, hzero, if_pos] at hok
        exact Except.noConfusion hok
  · intro cp u hc hu hzero
    unfold UnresolvedAggregatedLibraryConfiguration.try_resolve
    simp only [hc, hu, hzero, if_pos]
  · intro r hok
    unfold UnresolvedAggregatedLibraryConfiguration.try_resolve at hok
    rcases hc : canonicalize (replacePlaceholders c.path) with e | cp
    · simp only [hc] at hok
      exact Except.noConfusion hok
    · simp only [hc] at hok
      rcases hu : toUtf8 cp with _ | u
      · simp only [hu] at hok
        exact Except.noConfusion hok
      · simp only [hu] at hok
        by_cases hzero : c.transcode_threads = 0
        · simp only [hzero, if_pos] at hok
          exact Except.noConfusion hok
        · rw [if_neg hzero] at hok
          injection hok with hok
          subst hok
          exact ⟨rfl, Nat.one_le_iff_ne_zero.mpr hzero, rfl⟩

/-- Witness for C7: a two-thread configuration resolves and the pool is built
with exactly two threads. -/
theorem transcode_threads_validation_witness :
    sampleUnresolvedConfig.try_resolve id (fun s => .ok s) some =
      .ok ⟨"/out", 2, 3, 1⟩ ∧
    (2 = 2 ∧ 1 ≤ 2 ∧ (build_transcode_thread_pool ⟨⟨"/out", 2, 3, 1⟩⟩).num_threads = 2) :=
  ⟨rfl,
    (transcode_threads_validation sampleUnresolvedConfig id (fun s => .ok s) some).2.2
      ⟨"/out", 2, 3, 1⟩ rfl⟩

/-- C9: in the worker closure's program order the blocking
`file_packet.process` call completes before the progress-bar mutex is
acquired, and the critical section contains only the progress/report actions,
never the blocking call - whether or not the job failed. -/
theorem worker_lock_not_held_across_process (work_failed : Bool) :
    ∃ critical,
      worker_closure_trace work_failed =
        [WorkerAction.processFilePacket, WorkerAction.lockAcquire] ++ critical
          ++ [WorkerAction.lockRelease] ∧
      WorkerAction.processFilePacket ∉ critical ∧
      ∀ a ∈ critical,
        a = WorkerAction.progressBarInc ∨ a = WorkerAction.progressBarSetMessage
          ∨ a = WorkerAction.sendError := by
  cases work_failed with
  | false =>
    exact ⟨[.progressBarInc, .progressBarSetMessage], by decide, by decide, by decide⟩
  | true =>
    exact ⟨[.progressBarInc, .progressBarSetMessage, .sendError],
      by decide, by decide, by decide⟩

theorem get_saved_meta_cached (info : AlbumDirectoryInfo) (cv : Option LibraryMeta)
    (fv : CachedValue LibraryMeta) (fs : AlbumFs) :
    AlbumWorkPacket.get_saved_meta ⟨info, ⟨some cv⟩, fv⟩ fs =
      .ok (cv, ⟨info, ⟨some cv⟩, fv⟩) := by
  cases cv <;> rfl

theorem get_fresh_meta_cached (info : AlbumDirectoryInfo)
    (sv : CachedValue (Option LibraryMeta)) (m : LibraryMeta) (fs : AlbumFs) :
    AlbumWorkPacket.get_fresh_meta ⟨info, sv, ⟨some m⟩⟩ fs =
      .ok (m, ⟨info, sv, ⟨some m⟩⟩) := rfl

theorem get_saved_meta_populates (p : AlbumWorkPacket) (fs : AlbumFs)
    (v : Option LibraryMeta) (p' : AlbumWorkPacket)
    (h : p.get_saved_meta fs = .ok (v, p')) :
    p' = ⟨p.album_info, ⟨some v⟩, p.cached_fresh_meta⟩ := by
  obtain ⟨info, ⟨sv⟩, fv⟩ := p
  cases sv with
  | none =>
    rcases hl : fs.loadResult with e | saved
    · have h0 : AlbumWorkPacket.get_saved_meta ⟨info, ⟨none⟩, fv⟩ fs =
          (match fs.loadResult with
           | .error e => .error e
           | .ok saved_meta =>
             .ok (saved_meta, ⟨info, ⟨some saved_meta⟩, fv⟩)) := rfl
      rw [h0, hl] at h
      exact Except.noConfusion h
    · have h0 : AlbumWorkPacket.get_saved_meta ⟨info, ⟨none⟩, fv⟩ fs =
          (match fs.loadResult with
           | .error e => .error e
           | .ok saved_meta =>
             .ok (saved_meta, ⟨info, ⟨some saved_meta⟩, fv⟩)) := rfl
      rw [h0, hl] at h
      simp only [Except.ok.injEq, Prod.mk.injEq] at h
      obtain ⟨h1, h2⟩ := h
      subst h1
      exact h2.symm
  | some cv =>
    rw [get_saved_meta_cached] at h
    simp only [Except.ok.injEq, Prod.mk.injEq] at h
    obtain ⟨h1, h2⟩ := h
    subst h1
    exact h2.symm

theorem get_fresh_meta_populates (p : AlbumWorkPacket) (fs : AlbumFs)
    (m : LibraryMeta) (p' : AlbumWorkPacket)
    (h : p.get_fresh_meta fs = .ok (m, p')) :
    p' = ⟨p.album_info, p.cached_saved_meta, ⟨some m⟩⟩ := by
  obtain ⟨info, sv, ⟨fv⟩⟩ := p
  cases fv with
  | none =>
    rcases hg : fs.generateResult with e | fresh
    · have h0 : AlbumWorkPacket.get_fresh_meta ⟨info, sv, ⟨none⟩⟩ fs =
          (match fs.generateResult with
           | .error e => .error e
           | .ok fresh_meta =>
             .ok (fresh_meta, ⟨info, sv, ⟨some fresh_meta⟩⟩)) := rfl
      rw [h0, hg] at h
      exact Except.noConfusion h
    · have h0 : AlbumWorkPacket.get_fresh_meta ⟨info, sv, ⟨none⟩⟩ fs =
          (match fs.generateResult with
           | .error e => .error e
           | .ok fresh_meta =>
             .ok (fresh_meta, ⟨info, sv, ⟨some fresh_meta⟩⟩)) := rfl
      rw [h0, hg] at h
      simp only [Except.ok.injEq, Prod.mk.injEq] at h
      obtain ⟨h1, h2⟩ := h
      subst h1
      exact h2.symm
  | some cached =>
    rw [get_fresh_meta_cached] at h
    simp only [Except.ok.injEq, Prod.mk.injEq] at h
    obtain ⟨h1, h2⟩ := h
    subst h1
    exact h2.symm

theorem needs_processing_none_cached (info : AlbumDirectoryInfo)
    (fv : CachedValue LibraryMeta) (fs : AlbumFs) :
    AlbumWorkPacket.needs_processing ⟨info, ⟨some none⟩, fv⟩ fs =
      .ok (true, ⟨info, ⟨some none⟩, fv⟩) := rfl

theorem needs_processing_both_cached (info : AlbumDirectoryInfo)
    (saved fresh : LibraryMeta) (fs : AlbumFs) :
    AlbumWorkPacket.needs_processing ⟨info, ⟨some (some saved)⟩, ⟨some fresh⟩⟩ fs =
      .ok ((saved.diff fresh).has_any_changes,
        ⟨info, ⟨some (some saved)⟩, ⟨some fresh⟩⟩) := rfl

theorem needs_processing_shape (p : AlbumWorkPacket) (fs : AlbumFs) (b : Bool)
    (p' : AlbumWorkPacket) (h : p.needs_processing fs = .ok (b, p')) :
    (b = true ∧ p' = ⟨p.album_info, ⟨some none⟩, p.cached_fresh_meta⟩) ∨
    (∃ saved fresh,
      p' = ⟨p.album_info, ⟨some (some saved)⟩, ⟨some fresh⟩⟩ ∧
      b = (saved.diff fresh).has_any_changes) := by
  rcases hs : p.get_saved_meta fs with e | ⟨v, p₁⟩
  · simp only [AlbumWorkPacket.needs_processing, hs] at h
    exact Except.noConfusion h
  · have hp₁ := get_saved_meta_populates p fs v p₁ hs
    cases v with
    | none =>
      simp only [AlbumWorkPacket.needs_processing, hs, Except.ok.injEq,
        Prod.mk.injEq] at h
      exact Or.inl ⟨h.1.symm, h.2.symm.trans hp₁⟩
    | some saved =>
      rcases hf : p₁.get_fresh_meta fs with e | ⟨fresh, p₂⟩
      · simp only [AlbumWorkPacket.needs_processing, hs, hf] at h
        exact Except.noConfusion h
      · have hp₂ := get_fresh_meta_populates p₁ fs fresh p₂ hf
        simp only [AlbumWorkPacket.needs_processing, hs, hf, Except.ok.injEq,
          Prod.mk.injEq] at h
        refine Or.inr ⟨saved, fresh, ?_, h.1.symm⟩
        rw [← h.2, hp₂, hp₁]

/-- C8: the saved and fresh snapshots are each computed at most once per
packet: once a call succeeded, every later call on the returned packet -
through `get_saved_meta` / `get_fresh_meta` directly or through repeated
`needs_processing` / `get_work_packets` - returns the identical value and
leaves the packet unchanged, over an arbitrary second filesystem (so the
environment is provably not consulted again). -/
theorem snapshot_caching_memoization (p : AlbumWorkPacket) (fs : AlbumFs) :
    (∀ v p', p.get_saved_meta fs = .ok (v, p') →
      ∀ fs₂, p'.get_saved_meta fs₂ = .ok (v, p')) ∧
    (∀ m p', p.get_fresh_meta fs = .ok (m, p') →
      ∀ fs₂, p'.get_fresh_meta fs₂ = .ok (m, p')) ∧
    (∀ b p', p.needs_processing fs = .ok (b, p') →
      ∀ fs₂, p'.needs_processing fs₂ = .ok (b, p')) ∧
    (∀ l p', p.get_work_packets fs = .ok (l, p') →
      ∀ fs₂, p'.get_work_packets fs₂ = .ok (l, p')) := by
  have saved_again : ∀ v (p' : AlbumWorkPacket), p.get_saved_meta fs = .ok (v, p') →
      ∀ fs₂, p'.get_saved_meta fs₂ = .ok (v, p') := by
    intro v p' h fs₂
    rw [get_saved_meta_populates p fs v p' h]
    exact get_saved_meta_cached ..
  have fresh_again : ∀ m (p' : AlbumWorkPacket), p.get_fresh_meta fs = .ok (m, p') →
      ∀ fs₂, p'.get_fresh_meta fs₂ = .ok (m, p') := by
    intro m p' h fs₂
    rw [get_fresh_meta_populates p fs m p' h]
    exact get_fresh_meta_cached ..
  have needs_again : ∀ b (p' : AlbumWorkPacket), p.needs_processing fs = .ok (b, p') →
      ∀ fs₂, p'.needs_processing fs₂ = .ok (b, p') := by
    intro b p' h fs₂
    rcases needs_processing_shape p fs b p' h with ⟨hb, hp⟩ | ⟨saved, fresh, hp, hb⟩
    · subst hb
      rw [hp]
      exact needs_processing_none_cached ..
    · subst hb
      rw [hp]
      exact needs_processing_both_cached ..
  refine ⟨saved_again, fresh_again, needs_again, ?_⟩
  intro l p' h fs₂
  rcases hn : p.needs_processing fs with e | ⟨b, p₁⟩
  · simp only [AlbumWorkPacket.get_work_packets, hn] at h
    exact Except.noConfusion h
  · cases b with
    | false =>
      simp only [AlbumWorkPacket.get_work_packets, hn, Bool.not_false, if_pos,
        Except.ok.injEq, Prod.mk.injEq] at h
      obtain ⟨hl, hp⟩ := h
      have hn₂ := needs_again false p₁ hn fs₂
      rw [← hp, ← hl]
      simp only [AlbumWorkPacket.get_work_packets, hn₂, Bool.not_false, if_pos]
    | true =>
      rcases hf : p₁.get_fresh_meta fs with e | ⟨fresh, p₂⟩
      · simp only [AlbumWorkPacket.get_work_packets, hn, Bool.not_true,
          Bool.false_eq_true, if_false, hf] at h
        exact Except.noConfusion h
      · simp only [AlbumWorkPacket.get_work_packets, hn, Bool.not_true,
          Bool.false_eq_true, if_false, hf, buildFilePackets_eq, Except.ok.injEq,
          Prod.mk.injEq] at h
        obtain ⟨hl, hp⟩ := h
        have hp₂shape := get_fresh_meta_populates p₁ fs fresh p₂ hf
        have hn₂ : p₂.needs_processing fs₂ = .ok (true, p₂) := by
          rcases needs_processing_shape p fs true p₁ hn with ⟨_, hp₁⟩ |
            ⟨saved, fresh₁, hp₁, hb₁⟩
          · rw [hp₁] at hp₂shape
            rw [hp₂shape]
            exact needs_processing_none_cached ..
          · rw [hp₁] at hf
            rw [get_fresh_meta_cached] at hf
            simp only [Except.ok.injEq, Prod.mk.injEq] at hf
            obtain ⟨hfr, hpp⟩ := hf
            subst hfr
            rw [← hpp]
            rw [needs_processing_both_cached, ← hb₁]
        have hf₂ : p₂.get_fresh_meta fs₂ = .ok (fresh, p₂) := by
          rw [hp₂shape]
          exact get_fresh_meta_cached ..
        rw [← hp, ← hl]
        simp only [AlbumWorkPacket.get_work_packets, hn₂, Bool.not_true,
          Bool.false_eq_true, if_false, hf₂, buildFilePackets_eq]

/-- Witness for C8: after one successful saved-snapshot access over
`threeFileFs`, the same value comes back over a filesystem whose sidecar
content differs (`firstRunFs` has no sidecar at all), showing the cache is
read instead of the environment. -/
theorem snapshot_caching_memoization_witness :
    samplePacket.get_saved_meta threeFileFs =
      .ok (some threeFileSaved, threeFilePacketSavedOnly) ∧
    threeFilePacketSavedOnly.get_saved_meta firstRunFs =
      .ok (some threeFileSaved, threeFilePacketSavedOnly) :=
  ⟨rfl,
    (snapshot_caching_memoization samplePacket threeFileFs).1
      (some threeFileSaved) threeFilePacketSavedOnly rfl firstRunFs⟩

theorem job_errors_nil_iff (env : FileJobEnv) (spawned : List FileWorkPacket) :
    job_errors env spawned = [] ↔
      ∀ packet ∈ spawned, env.processResultOf packet = .ok () := by
  unfold job_errors
  rw [List.filterMap_eq_nil_iff]
  constructor
  · intro h packet hm
    have hp := h packet hm
    rcases he : env.processResultOf packet with e | u
    · rw [he] at hp
      exact Option.noConfusion hp
    · cases u
      rfl
  · intro h packet hm
    rw [h packet hm]

theorem job_errors_mem (env : FileJobEnv) (spawned : List FileWorkPacket)
    (packet : FileWorkPacket) (e : IoError) (hm : packet ∈ spawned)
    (he : env.processResultOf packet = .error e) :
    e ∈ job_errors env spawned := by
  unfold job_errors
  rw [List.mem_filterMap]
  refine ⟨packet, hm, ?_⟩
  rw [he]

theorem dispatch_all_ok (env : FileJobEnv) (packets : List FileWorkPacket)
    (h : ∀ packet ∈ packets, ∃ n, env.fileNameOf packet = .ok n) :
    dispatch_file_packets env packets = (packets, []) := by
  induction packets with
  | nil => rfl
  | cons head tail ih =>
    obtain ⟨n, hn⟩ := h head (List.mem_cons_self ..)
    simp only [dispatch_file_packets, hn,
      ih (fun packet hm => h packet (List.mem_cons_of_mem _ hm))]

theorem dispatch_stops_at_error (env : FileJobEnv)
    (pre : List FileWorkPacket) (bad : FileWorkPacket) (post : List FileWorkPacket)
    (e : IoError)
    (hpre : ∀ packet ∈ pre, ∃ n, env.fileNameOf packet = .ok n)
    (hbad : env.fileNameOf bad = .error e) :
    dispatch_file_packets env (pre ++ bad :: post) = (pre, [e]) := by
  induction pre with
  | nil =>
    simp only [List.nil_append, dispatch_file_packets, hbad]
  | cons head tail ih =>
    obtain ⟨n, hn⟩ := hpre head (List.mem_cons_self ..)
    simp only [List.cons_append, dispatch_file_packets, List.append_eq, hn,
      ih (fun packet hm => hpre packet (List.mem_cons_of_mem _ hm))]

theorem process_file_packets_reduce (env : FileJobEnv)
    (file_packets spawned : List FileWorkPacket) (derrs : List IoError)
    (hd : dispatch_file_packets env file_packets = (spawned, derrs))
    (hlen : file_packets.length ≠ 0) :
    process_file_packets_in_threadpool env file_packets =
      if (job_errors env spawned ++ derrs).length = 0 then .ok ()
      else .error (job_errors env spawned ++ derrs) := by
  unfold process_file_packets_in_threadpool
  rw [if_neg hlen, hd]

/-- C4 as stated is false: when a packet's display file name cannot be
resolved, the batch returns `Err` although no dispatched job reported an error
- indeed nothing was dispatched at all. -/
theorem threadpool_ok_iff_dispatched_errors_refuted :
    process_file_packets_in_threadpool dispatchAbortEnv [pktBadName] =
      .error ["could not get file name"] ∧
    (dispatch_file_packets dispatchAbortEnv [pktBadName]).1 = [] :=
  ⟨rfl, rfl⟩

/-- C4 (amended): `process_file_packets_in_threadpool` drains every
dispatched job and collects every job error, returning `Ok` exactly when no
dispatched job failed and no packet's file-name resolution failed; otherwise
it returns `Err` carrying all collected errors, including the error of every
dispatched job that failed. -/
theorem threadpool_error_aggregation (env : FileJobEnv)
    (file_packets spawned : List FileWorkPacket) (derrs : List IoError)
    (hd : dispatch_file_packets env file_packets = (spawned, derrs)) :
    (process_file_packets_in_threadpool env file_packets = .ok () ↔
      (∀ packet ∈ spawned, env.processResultOf packet = .ok ()) ∧ derrs = []) ∧
    (∀ errs, process_file_packets_in_threadpool env file_packets = .error errs →
      errs = job_errors env spawned ++ derrs ∧
      ∀ packet ∈ spawned, ∀ e, env.processResultOf packet = .error e →
        e ∈ errs) := by
  by_cases hlen : file_packets.length = 0
  · have hnil := List.length_eq_zero.mp hlen
    subst hnil
    have h0 : (([], []) : List FileWorkPacket × List IoError) = (spawned, derrs) := hd
    injection h0 with h1 h2
    subst h1
    subst h2
    have hok : process_file_packets_in_threadpool env [] = .ok () := rfl
    constructor
    · rw [hok]
      simp
    · intro errs herrs
      rw [hok] at herrs
      exact Except.noConfusion herrs
  · have hred := process_file_packets_reduce env file_packets spawned derrs hd hlen
    by_cases hcoll : (job_errors env spawned ++ derrs).length = 0
    · obtain ⟨hj, hder⟩ := List.append_eq_nil.mp (List.length_eq_zero.mp hcoll)
      rw [if_pos hcoll] at hred
      constructor
      · rw [hred]
        constructor
        · intro _
          exact ⟨(job_errors_nil_iff env spawned).mp hj, hder⟩
        · intro _
          rfl
      · intro errs herrs
        rw [hred] at herrs
        exact Except.noConfusion herrs
    · rw [if_neg hcoll] at hred
      constructor
      · rw [hred]
        constructor
        · intro hok
          exact Except.noConfusion hok
        · intro ⟨hjobs, hder⟩
          exfalso
          apply hcoll
          rw [(job_errors_nil_iff env spawned).mpr hjobs, hder]
          rfl
      · intro errs herrs
        rw [hred] at herrs
        injection herrs with herrs
        subst herrs
        refine ⟨rfl, ?_⟩
        intro packet hm e he
        exact List.mem_append_left _ (job_errors_mem env spawned packet e hm he)

/-- Witness for C4 (amended): a batch with one failing job and one succeeding
job returns `Err` with exactly the failing job's error collected. -/
theorem threadpool_error_aggregation_witness :
    dispatch_file_packets dispatchAbortEnv [pktFailingJob, pktNeverRun] =
      ([pktFailingJob, pktNeverRun], []) ∧
    process_file_packets_in_threadpool dispatchAbortEnv [pktFailingJob, pktNeverRun] =
      .error ["job failed"] ∧
    "job failed" ∈ (["job failed"] : List IoError) :=
  ⟨rfl, rfl,
    ((threadpool_error_aggregation dispatchAbortEnv [pktFailingJob, pktNeverRun]
        [pktFailingJob, pktNeverRun] [] rfl).2 ["job failed"] rfl).2
      pktFailingJob (by decide) "job failed" rfl⟩

/-- C10: when a packet's file-name resolution fails, the error is sent to the
aggregation channel and the dispatch loop returns early: exactly the packets
before it are submitted, nothing after it is, and the batch reports the
failures of the already-dispatched jobs followed by the file-name error. -/
theorem dispatch_stops_after_file_name_error (env : FileJobEnv)
    (pre : List FileWorkPacket) (bad : FileWorkPacket) (post : List FileWorkPacket)
    (e : IoError)
    (hpre : ∀ packet ∈ pre, ∃ n, env.fileNameOf packet = .ok n)
    (hbad : env.fileNameOf bad = .error e) :
    dispatch_file_packets env (pre ++ bad :: post) = (pre, [e]) ∧
    process_file_packets_in_threadpool env (pre ++ bad :: post) =
      .error (job_errors env pre ++ [e]) := by
  have hdisp := dispatch_stops_at_error env pre bad post e hpre hbad
  refine ⟨hdisp, ?_⟩
  have hlen : (pre ++ bad :: post).length ≠ 0 := by
    simp
  have hred := process_file_packets_reduce env (pre ++ bad :: post) pre [e] hdisp hlen
  have hcoll : (job_errors env pre ++ [e]).length ≠ 0 := by
    simp
  rw [if_neg hcoll] at hred
  exact hred

/-- Witness for C10: with one already-dispatched failing job before the
bad-name packet and one packet after it, exactly the first packet is
dispatched and the batch reports its failure plus the file-name error. -/
theorem dispatch_stops_after_file_name_error_witness :
    dispatch_file_packets dispatchAbortEnv ([pktFailingJob] ++ pktBadName :: [pktNeverRun]) =
      ([pktFailingJob], ["could not get file name"]) ∧
    process_file_packets_in_threadpool dispatchAbortEnv
        ([pktFailingJob] ++ pktBadName :: [pktNeverRun]) =
      .error (job_errors dispatchAbortEnv [pktFailingJob] ++ ["could not get file name"]) :=
  dispatch_stops_after_file_name_error dispatchAbortEnv [pktFailingJob] pktBadName
    [pktNeverRun] "could not get file name"
    (fun packet hm => by
      simp only [List.mem_singleton] at hm
      subst hm
      exact ⟨"a.flac", rfl⟩)
    rfl

theorem listFind_listUpdate (items : List QueueItem) (id : Nat)
    (f : QueueItem → QueueItem) (hf : ∀ item, (f item).id = item.id) :
    listFindById (listUpdateById items id f) id = (listFindById items id).map f := by
  induction items with
  | nil => rfl
  | cons head tail ih =>
    by_cases hh : (head.id == id) = true
    · have h1 : listFindById (listUpdateById (head :: tail) id f) id = some (f head) := by
        unfold listUpdateById listFindById
        rw [List.map_cons, if_pos hh]
        exact List.find?_cons_of_pos _ (by rw [hf head]; exact hh)
      have h2 : listFindById (head :: tail) id = some head := by
        unfold listFindById
        exact List.find?_cons_of_pos _ hh
      rw [h1, h2]
      rfl
    · have h1 : listFindById (listUpdateById (head :: tail) id f) id
          = listFindById (listUpdateById tail id f) id := by
        unfold listUpdateById listFindById
        rw [List.map_cons, if_neg hh]
        exact List.find?_cons_of_neg _ hh
      have h2 : listFindById (head :: tail) id = listFindById tail id := by
        unfold listFindById
        exact List.find?_cons_of_neg _ hh
      rw [h1, h2, ih]

theorem update_item_some_iff (q : QueueState) (id : Nat) (f : QueueItem → QueueItem) :
    (∃ q₁, q.update_item_by_id id f = some q₁) ↔
      ∃ item, q.find_item_by_id id = some item := by
  unfold QueueState.update_item_by_id
  rcases h : q.find_item_by_id id with _ | item <;> simp

theorem remove_item_ok_iff (q : QueueState) (id : Nat) :
    (∃ q₁, q.remove_item_by_id id = .ok q₁) ↔
      ∃ item, q.find_item_by_id id = some item := by
  unfold QueueState.remove_item_by_id
  rcases h : q.find_item_by_id id with _ | item <;> simp

theorem find_after_update (q : QueueState) (id : Nat) (f : QueueItem → QueueItem)
    (hf : ∀ item, (f item).id = item.id) (q₁ : QueueState)
    (hu : q.update_item_by_id id f = some q₁) :
    q₁.find_item_by_id id = (q.find_item_by_id id).map f := by
  unfold QueueState.update_item_by_id at hu
  rcases h : q.find_item_by_id id with _ | item
  · rw [h] at hu
    exact Option.noConfusion hu
  · rw [h] at hu
    injection hu with hu
    subst hu
    show listFindById
        (listUpdateById q.library_items id f ++ listUpdateById q.album_items id f
          ++ listUpdateById q.file_items id f) id
      = Option.map f (some item)
    have hcat : listUpdateById q.library_items id f ++ listUpdateById q.album_items id f
        ++ listUpdateById q.file_items id f
        = listUpdateById (q.library_items ++ q.album_items ++ q.file_items) id f := by
      unfold listUpdateById
      rw [List.map_append, List.map_append]
    rw [hcat, listFind_listUpdate _ _ _ hf]
    rw [show listFindById (q.library_items ++ q.album_items ++ q.file_items) id
        = some item from h]

theorem queue_item_add_none (prog : Option ProgressState) (nid : Nat)
    (content : String) (queue_type : QueueType) :
    TerminalUIState.queue_item_add ⟨none, prog, nid⟩ content queue_type =
      .error "Queue is currently disabled, cannot add item." := rfl

theorem queue_item_add_some (q : QueueState) (prog : Option ProgressState)
    (nid : Nat) (content : String) (queue_type : QueueType) :
    TerminalUIState.queue_item_add ⟨some q, prog, nid⟩ content queue_type =
      .ok (nid, ⟨some (q.add_item (QueueItem.new content queue_type nid)), prog, nid + 1⟩) :=
  rfl

theorem queue_item_start_none (prog : Option ProgressState) (nid item_id : Nat) :
    TerminalUIState.queue_item_start ⟨none, prog, nid⟩ item_id =
      .error "Queue is currently disabled, cannot set item as active." := rfl

theorem queue_item_start_some (q : QueueState) (prog : Option ProgressState)
    (nid item_id : Nat) :
    TerminalUIState.queue_item_start ⟨some q, prog, nid⟩ item_id =
      (match q.update_item_by_id item_id startMutation with
       | some q₁ => .ok ⟨some q₁, prog, nid⟩
       | none => .error "No such queue item.") := rfl

theorem queue_item_finish_none (prog : Option ProgressState) (nid item_id : Nat)
    (was_ok : Bool) :
    TerminalUIState.queue_item_finish ⟨none, prog, nid⟩ item_id was_ok =
      .error "Queue is currently disabled, cannot set item as active." := rfl

theorem queue_item_finish_some (q : QueueState) (prog : Option ProgressState)
    (nid item_id : Nat) (was_ok : Bool) :
    TerminalUIState.queue_item_finish ⟨some q, prog, nid⟩ item_id was_ok =
      (match q.update_item_by_id item_id (finishMutation was_ok) with
       | some q₁ => .ok ⟨some q₁, prog, nid⟩
       | none => .error "No such queue item.") := rfl

theorem queue_item_modify_none (prog : Option ProgressState) (nid item_id : Nat)
    (f : QueueItem → QueueItem) :
    TerminalUIState.queue_item_modify ⟨none, prog, nid⟩ item_id f =
      .error "Queue is currently disabled, cannot set item as active." := rfl

theorem queue_item_modify_some (q : QueueState) (prog : Option ProgressState)
    (nid item_id : Nat) (f : QueueItem → QueueItem) :
    TerminalUIState.queue_item_modify ⟨some q, prog, nid⟩ item_id f =
      (match q.update_item_by_id item_id f with
       | some q₁ => .ok ⟨some q₁, prog, nid⟩
       | none => .error "No such queue item.") := rfl

theorem queue_item_remove_none (prog : Option ProgressState) (nid item_id : Nat) :
    TerminalUIState.queue_item_remove ⟨none, prog, nid⟩ item_id =
      .error "Queue is currently disabled, cannot set item as active." := rfl

theorem queue_item_remove_some (q : QueueState) (prog : Option ProgressState)
    (nid item_id : Nat) :
    TerminalUIState.queue_item_remove ⟨some q, prog, nid⟩ item_id =
      (match q.remove_item_by_id item_id with
       | .ok q₁ => .ok ⟨some q₁, prog, nid⟩
       | .error e => .error e) := rfl

theorem queue_clear_none (prog : Option ProgressState) (nid : Nat)
    (queue_type : QueueType) :
    TerminalUIState.queue_clear ⟨none, prog, nid⟩ queue_type =
      .error "Queue is currently disabled, cannot clear." := rfl

theorem queue_clear_some (q : QueueState) (prog : Option ProgressState)
    (nid : Nat) (queue_type : QueueType) :
    TerminalUIState.queue_clear ⟨some q, prog, nid⟩ queue_type =
      .ok ⟨some (q.clear_queue_by_type queue_type), prog, nid⟩ := rfl

/-- C6: every mutating queue operation of the terminal backend fails exactly
when the queue has not been begun or, for the item operations, the supplied ID
is unknown (`queue_item_add` and `queue_clear` take no ID, so for them the
condition is only that the queue is disabled); and the model guards no state
transitions: `queue_item_finish` on an item that is still `Pending` succeeds
and records the finished state. -/
theorem queue_ops_error_conditions (s : TerminalUIState) (item_id : Nat)
    (content : String) (queue_type : QueueType) (was_ok : Bool)
    (f : QueueItem → QueueItem) :
    ((∃ r, s.queue_item_add content queue_type = .ok r) ↔
      s.queue_state.isSome = true) ∧
    ((∃ s₁, s.queue_item_start item_id = .ok s₁) ↔
      ∃ q item, s.queue_state = some q ∧ q.find_item_by_id item_id = some item) ∧
    ((∃ s₁, s.queue_item_finish item_id was_ok = .ok s₁) ↔
      ∃ q item, s.queue_state = some q ∧ q.find_item_by_id item_id = some item) ∧
    ((∃ s₁, s.queue_item_modify item_id f = .ok s₁) ↔
      ∃ q item, s.queue_state = some q ∧ q.find_item_by_id item_id = some item) ∧
    ((∃ s₁, s.queue_item_remove item_id = .ok s₁) ↔
      ∃ q item, s.queue_state = some q ∧ q.find_item_by_id item_id = some item) ∧
    ((∃ s₁, s.queue_clear queue_type = .ok s₁) ↔ s.queue_state.isSome = true) ∧
    (∀ q item, s.queue_state = some q →
      q.find_item_by_id item_id = some item →
      item.get_state = QueueItemState.pending →
      ∃ q₁, s.queue_item_finish item_id was_ok =
          .ok { s with queue_state := some q₁ } ∧
        q₁.find_item_by_id item_id = some (finishMutation was_ok item) ∧
        (finishMutation was_ok item).get_state = QueueItemState.finished) := by
  obtain ⟨qs, prog, nid⟩ := s
  refine ⟨?_, ?_, ?_, ?_, ?_, ?_, ?_⟩
  · constructor
    · rintro ⟨r, hr⟩
      cases qs with
      | none =>
        rw [queue_item_add_none] at hr
        exact Except.noConfusion hr
      | some q => rfl
    · intro h
      cases qs with
      | none => exact Bool.noConfusion h
      | some q => exact ⟨_, queue_item_add_some q prog nid content queue_type⟩
  · constructor
    · rintro ⟨s₁, hs₁⟩
      cases qs with
      | none =>
        rw [queue_item_start_none] at hs₁
        exact Except.noConfusion hs₁
      | some q =>
        rw [queue_item_start_some] at hs₁
        rcases hu : q.update_item_by_id item_id startMutation with _ | q₁
        · exact Except.noConfusion (hu ▸ hs₁)
        · obtain ⟨item, hitem⟩ :=
            (update_item_some_iff q item_id startMutation).mp ⟨q₁, hu⟩
          exact ⟨q, item, rfl, hitem⟩
    · rintro ⟨q, item, hq, hitem⟩
      have hqs : qs = some q := hq
      subst hqs
      rw [queue_item_start_some]
      obtain ⟨q₁, hu⟩ := (update_item_some_iff q item_id startMutation).mpr ⟨item, hitem⟩
      rw [hu]
      exact ⟨_, rfl⟩
  · constructor
    · rintro ⟨s₁, hs₁⟩
      cases qs with
      | none =>
        rw [queue_item_finish_none] at hs₁
        exact Except.noConfusion hs₁
      | some q =>
        rw [queue_item_finish_some] at hs₁
        rcases hu : q.update_item_by_id item_id (finishMutation was_ok) with _ | q₁
        · exact Except.noConfusion (hu ▸ hs₁)
        · obtain ⟨item, hitem⟩ :=
            (update_item_some_iff q item_id (finishMutation was_ok)).mp ⟨q₁, hu⟩
          exact ⟨q, item, rfl, hitem⟩
    · rintro ⟨q, item, hq, hitem⟩
      have hqs : qs = some q := hq
      subst hqs
      rw [queue_item_finish_some]
      obtain ⟨q₁, hu⟩ :=
        (update_item_some_iff q item_id (finishMutation was_ok)).mpr ⟨item, hitem⟩
      rw [hu]
      exact ⟨_, rfl⟩
  · constructor
    · rintro ⟨s₁, hs₁⟩
      cases qs with
      | none =>
        rw [queue_item_modify_none] at hs₁
        exact Except.noConfusion hs₁
      | some q =>
        rw [queue_item_modify_some] at hs₁
        rcases hu : q.update_item_by_id item_id f with _ | q₁
        · exact Except.noConfusion (hu ▸ hs₁)
        · obtain ⟨item, hitem⟩ := (update_item_some_iff q item_id f).mp ⟨q₁, hu⟩
          exact ⟨q, item, rfl, hitem⟩
    · rintro ⟨q, item, hq, hitem⟩
      have hqs : qs = some q := hq
      subst hqs
      rw [queue_item_modify_some]
      obtain ⟨q₁, hu⟩ := (update_item_some_iff q item_id f).mpr ⟨item, hitem⟩
      rw [hu]
      exact ⟨_, rfl⟩
  · constructor
    · rintro ⟨s₁, hs₁⟩
      cases qs with
      | none =>
        rw [queue_item_remove_none] at hs₁
        exact Except.noConfusion hs₁
      | some q =>
        rw [queue_item_remove_some] at hs₁
        rcases hr : q.remove_item_by_id item_id with e | q₁
        · exact Except.noConfusion (hr ▸ hs₁)
        · obtain ⟨item, hitem⟩ := (remove_item_ok_iff q item_id).mp ⟨q₁, hr⟩
          exact ⟨q, item, rfl, hitem⟩
    · rintro ⟨q, item, hq, hitem⟩
      have hqs : qs = some q := hq
      subst hqs
      rw [queue_item_remove_some]
      obtain ⟨q₁, hr⟩ := (remove_item_ok_iff q item_id).mpr ⟨item, hitem⟩
      rw [hr]
      exact ⟨_, rfl⟩
  · constructor
    · rintro ⟨s₁, hs₁⟩
      cases qs with
      | none =>
        rw [queue_clear_none] at hs₁
        exact Except.noConfusion hs₁
      | some q => rfl
    · intro h
      cases qs with
      | none => exact Bool.noConfusion h
      | some q => exact ⟨_, queue_clear_some q prog nid queue_type⟩
  · intro q item hq hitem hpending
    have hqs : qs = some q := hq
    subst hqs
    have hf : ∀ it : QueueItem, (finishMutation was_ok it).id = it.id := fun _ => rfl
    obtain ⟨q₁, hu⟩ :=
      (update_item_some_iff q item_id (finishMutation was_ok)).mpr ⟨item, hitem⟩
    refine ⟨q₁, ?_, ?_, rfl⟩
    · rw [queue_item_finish_some, hu]
    · have hfind := find_after_update q item_id (finishMutation was_ok) hf q₁ hu
      rw [hfind, hitem]
      rfl

/-- Witness for C6: finishing the still-pending item with ID 0 in a begun
queue succeeds and records `Finished{ok: false}`. -/
theorem queue_ops_error_conditions_witness :
    ∃ q₁, pendingUIState.queue_item_finish 0 false =
        .ok { pendingUIState with queue_state := some q₁ } ∧
      q₁.find_item_by_id 0 = some (finishMutation false pendingQueueItem) ∧
      (finishMutation false pendingQueueItem).get_state = QueueItemState.finished :=
  (queue_ops_error_conditions pendingUIState 0 "X" QueueType.file false id).2.2.2.2.2.2
    pendingQueue pendingQueueItem rfl rfl rfl

theorem get_work_packets_then_fresh (p : AlbumWorkPacket) (fs : AlbumFs)
    (l : List FileWorkPacket) (p' : AlbumWorkPacket)
    (h : p.get_work_packets fs = .ok (l, p')) :
    ∃ m, ∀ fs₂, p'.get_fresh_meta fs₂ = .ok (m, p') := by
  rcases hn : p.needs_processing fs with e | ⟨b, p₁⟩
  · simp only [AlbumWorkPacket.get_work_packets, hn] at h
    exact Except.noConfusion h
  · cases b with
    | false =>
      simp only [AlbumWorkPacket.get_work_packets, hn, Bool.not_false, if_pos,
        Except.ok.injEq, Prod.mk.injEq] at h
      obtain ⟨hl, hp⟩ := h
      rcases needs_processing_shape p fs false p₁ hn with ⟨hb, _⟩ |
        ⟨saved, fresh, hp₁, _⟩
      · exact Bool.noConfusion hb
      · refine ⟨fresh, fun fs₂ => ?_⟩
        rw [← hp, hp₁]
        exact get_fresh_meta_cached ..
    | true =>
      rcases hf : p₁.get_fresh_meta fs with e | ⟨fresh, p₂⟩
      · simp only [AlbumWorkPacket.get_work_packets, hn, Bool.not_true,
          Bool.false_eq_true, if_false, hf] at h
        exact Except.noConfusion h
      · simp only [AlbumWorkPacket.get_work_packets, hn, Bool.not_true,
          Bool.false_eq_true, if_false, hf, buildFilePackets_eq, Except.ok.injEq,
          Prod.mk.injEq] at h
        obtain ⟨hl, hp⟩ := h
        have hshape := get_fresh_meta_populates p₁ fs fresh p₂ hf
        refine ⟨fresh, fun fs₂ => ?_⟩
        rw [← hp, hshape]
        exact get_fresh_meta_cached ..

theorem save_fresh_meta_after_work (p : AlbumWorkPacket) (fs : AlbumFs)
    (l : List FileWorkPacket) (p' : AlbumWorkPacket)
    (h : p.get_work_packets fs = .ok (l, p'))
    (hsave : fs.saveResult = .ok ()) :
    p'.save_fresh_meta fs true = .ok p' := by
  obtain ⟨m, hm⟩ := get_work_packets_then_fresh p fs l p' h
  simp only [AlbumWorkPacket.save_fresh_meta, hm fs, hsave]

theorem run_album_zero_packets (env : FileJobEnv) (job : AlbumJob)
    (p' : AlbumWorkPacket)
    (h : job.packet.get_work_packets job.fs = .ok ([], p'))
    (hsave : job.fs.saveResult = .ok ()) :
    run_album env job =
      ([RunEvent.got_work_packets job.id 0, RunEvent.batch_ok job.id,
        RunEvent.saved_meta job.id], none) := by
  have hsv := save_fresh_meta_after_work job.packet job.fs [] p' h hsave
  simp only [run_album, h, List.length_nil, hsv]
  rfl

/-- C5 as stated is false for the multi-album commands: an album whose
sidecar still tracks a file while the directory holds none passes the
needs-processing filter, produces zero dispatched file packets, and the
`cmd_transcode_all` loop still performs the sidecar persistence call (the
`saved_meta` event appears in the trace). -/
theorem zero_packet_album_persists_in_full_run :
    (allRemovedJob.packet.needs_processing allRemovedJob.fs).map Prod.fst = .ok true ∧
    (allRemovedJob.packet.get_work_packets allRemovedJob.fs).map
      (fun r => r.1.length) = .ok 0 ∧
    run_albums allOkJobEnv [allRemovedJob] =
      ([RunEvent.got_work_packets 7 0, RunEvent.batch_ok 7, RunEvent.saved_meta 7],
        none) :=
  ⟨rfl, rfl, rfl⟩

/-- C5 (amended): in `cmd_transcode_album` an album whose batch contains zero
dispatched file work packets causes no persistence call and is reported as
already up to date (early return before the pool and before `save_fresh_meta`);
in the per-album loop of `cmd_transcode_all` / `cmd_transcode_library`,
however, an album reaching the loop with zero file packets still has
`save_fresh_meta` invoked and no up-to-date report is made for it. -/
theorem zero_packet_album_single_vs_full (env : FileJobEnv) (job : AlbumJob) :
    (∀ total p₁ p₂, job.packet.get_total_track_count job.fs = .ok (total, p₁) →
      p₁.get_work_packets job.fs = .ok ([], p₂) →
      cmd_transcode_album_run env job =
        ⟨[RunEvent.got_work_packets job.id 0], true, none⟩) ∧
    (∀ p', job.packet.get_work_packets job.fs = .ok ([], p') →
      job.fs.saveResult = .ok () →
      run_album env job =
        ([RunEvent.got_work_packets job.id 0, RunEvent.batch_ok job.id,
          RunEvent.saved_meta job.id], none)) := by
  constructor
  · intro total p₁ p₂ hc hw
    simp [cmd_transcode_album_run, hc, hw]
  · intro p' h hsave
    exact run_album_zero_packets env job p' h hsave

/-- Witness for C5 (amended): the all-files-removed album is reported up to
date without persistence by `cmd_transcode_album`, while the multi-album loop
persists its fresh snapshot. -/
theorem zero_packet_album_single_vs_full_witness :
    cmd_transcode_album_run allOkJobEnv allRemovedJob =
      ⟨[RunEvent.got_work_packets 7 0], true, none⟩ ∧
    run_album allOkJobEnv allRemovedJob =
      ([RunEvent.got_work_packets 7 0, RunEvent.batch_ok 7, RunEvent.saved_meta 7],
        none) :=
  ⟨(zero_packet_album_single_vs_full allOkJobEnv allRemovedJob).1 0
      allRemovedFreshCached allRemovedBothCached rfl rfl,
    (zero_packet_album_single_vs_full allOkJobEnv allRemovedJob).2
      allRemovedBothCached rfl rfl⟩

theorem get_saved_meta_consistent_shape (p : AlbumWorkPacket) (fs : AlbumFs)
    (v : Option LibraryMeta) (p₁ : AlbumWorkPacket)
    (h : CachesConsistent p fs) (hs : p.get_saved_meta fs = .ok (v, p₁)) :
    fs.loadResult = .ok v ∧ CachesConsistent p₁ fs ∧ p₁.album_info = p.album_info := by
  have hp₁ := get_saved_meta_populates p fs v p₁ hs
  obtain ⟨info, ⟨sv⟩, ⟨fv⟩⟩ := p
  cases sv with
  | some cv =>
    have hl := h.1 cv rfl
    rw [get_saved_meta_cached] at hs
    simp only [Except.ok.injEq, Prod.mk.injEq] at hs
    obtain ⟨hv, _⟩ := hs
    subst hv
    subst hp₁
    exact ⟨hl,
      ⟨fun w hw => by injection hw with hw; subst hw; exact hl, h.2⟩, rfl⟩
  | none =>
    rcases hl : fs.loadResult with e | saved
    · have h0 : AlbumWorkPacket.get_saved_meta ⟨info, ⟨none⟩, ⟨fv⟩⟩ fs =
          (match fs.loadResult with
           | .error e => .error e
           | .ok saved_meta => .ok (saved_meta, ⟨info, ⟨some saved_meta⟩, ⟨fv⟩⟩)) := rfl
      rw [h0, hl] at hs
      exact Except.noConfusion hs
    · have h0 : AlbumWorkPacket.get_saved_meta ⟨info, ⟨none⟩, ⟨fv⟩⟩ fs =
          (match fs.loadResult with
           | .error e => .error e
           | .ok saved_meta => .ok (saved_meta, ⟨info, ⟨some saved_meta⟩, ⟨fv⟩⟩)) := rfl
      rw [h0, hl] at hs
      simp only [Except.ok.injEq, Prod.mk.injEq] at hs
      obtain ⟨hv, _⟩ := hs
      subst hv
      subst hp₁
      exact ⟨rfl,
        ⟨fun w hw => by injection hw with hw; subst hw; exact hl, h.2⟩, rfl⟩

theorem get_fresh_meta_consistent_shape (p : AlbumWorkPacket) (fs : AlbumFs)
    (m : LibraryMeta) (p₁ : AlbumWorkPacket)
    (h : CachesConsistent p fs) (hf : p.get_fresh_meta fs = .ok (m, p₁)) :
    fs.generateResult = .ok m ∧ CachesConsistent p₁ fs ∧ p₁.album_info = p.album_info := by
  have hp₁ := get_fresh_meta_populates p fs m p₁ hf
  obtain ⟨info, ⟨sv⟩, ⟨fv⟩⟩ := p
  cases fv with
  | some cached =>
    have hg := h.2 cached rfl
    rw [get_fresh_meta_cached] at hf
    simp only [Except.ok.injEq, Prod.mk.injEq] at hf
    obtain ⟨hv, _⟩ := hf
    subst hv
    subst hp₁
    exact ⟨hg,
      ⟨h.1, fun w hw => by injection hw with hw; subst hw; exact hg⟩, rfl⟩
  | none =>
    rcases hg : fs.generateResult with e | fresh
    · have h0 : AlbumWorkPacket.get_fresh_meta ⟨info, ⟨sv⟩, ⟨none⟩⟩ fs =
          (match fs.generateResult with
           | .error e => .error e
           | .ok fresh_meta => .ok (fresh_meta, ⟨info, ⟨sv⟩, ⟨some fresh_meta⟩⟩)) := rfl
      rw [h0, hg] at hf
      exact Except.noConfusion hf
    · have h0 : AlbumWorkPacket.get_fresh_meta ⟨info, ⟨sv⟩, ⟨none⟩⟩ fs =
          (match fs.generateResult with
           | .error e => .error e
           | .ok fresh_meta => .ok (fresh_meta, ⟨info, ⟨sv⟩, ⟨some fresh_meta⟩⟩)) := rfl
      rw [h0, hg] at hf
      simp only [Except.ok.injEq, Prod.mk.injEq] at hf
      obtain ⟨hv, _⟩ := hf
      subst hv
      subst hp₁
      exact ⟨rfl,
        ⟨h.1, fun w hw => by injection hw with hw; subst hw; exact hg⟩, rfl⟩

theorem get_fresh_meta_error_consistent (p : AlbumWorkPacket) (fs : AlbumFs)
    (e : IoError) (h : CachesConsistent p fs)
    (hf : p.get_fresh_meta fs = .error e) : fs.generateResult = .error e := by
  obtain ⟨info, ⟨sv⟩, ⟨fv⟩⟩ := p
  cases fv with
  | some cached =>
    rw [get_fresh_meta_cached] at hf
    exact Except.noConfusion hf
  | none =>
    rcases hg : fs.generateResult with e₂ | fresh
    · have h0 : AlbumWorkPacket.get_fresh_meta ⟨info, ⟨sv⟩, ⟨none⟩⟩ fs =
          (match fs.generateResult with
           | .error e => .error e
           | .ok fresh_meta => .ok (fresh_meta, ⟨info, ⟨sv⟩, ⟨some fresh_meta⟩⟩)) := rfl
      rw [h0, hg] at hf
      injection hf with hf
      rw [← hf]
    · have h0 : AlbumWorkPacket.get_fresh_meta ⟨info, ⟨sv⟩, ⟨none⟩⟩ fs =
          (match fs.generateResult with
           | .error e => .error e
           | .ok fresh_meta => .ok (fresh_meta, ⟨info, ⟨sv⟩, ⟨some fresh_meta⟩⟩)) := rfl
      rw [h0, hg] at hf
      exact Except.noConfusion hf

theorem needs_processing_consistent_shape (p : AlbumWorkPacket) (fs : AlbumFs)
    (b : Bool) (p₁ : AlbumWorkPacket)
    (h : CachesConsistent p fs) (hn : p.needs_processing fs = .ok (b, p₁)) :
    CachesConsistent p₁ fs ∧ p₁.album_info = p.album_info := by
  rcases hs : p.get_saved_meta fs with e | ⟨v, q⟩
  · simp only [AlbumWorkPacket.needs_processing, hs] at hn
    exact Except.noConfusion hn
  · obtain ⟨hl, hq, hqinfo⟩ := get_saved_meta_consistent_shape p fs v q h hs
    cases v with
    | none =>
      simp only [AlbumWorkPacket.needs_processing, hs, Except.ok.injEq,
        Prod.mk.injEq] at hn
      obtain ⟨_, hp⟩ := hn
      rw [← hp]
      exact ⟨hq, hqinfo⟩
    | some saved =>
      rcases hf : q.get_fresh_meta fs with e | ⟨fresh, p₂⟩
      · simp only [AlbumWorkPacket.needs_processing, hs, hf] at hn
        exact Except.noConfusion hn
      · obtain ⟨hg, hp₂, hp₂info⟩ := get_fresh_meta_consistent_shape q fs fresh p₂ hq hf
        simp only [AlbumWorkPacket.needs_processing, hs, hf, Except.ok.injEq,
          Prod.mk.injEq] at hn
        obtain ⟨_, hp⟩ := hn
        rw [← hp]
        exact ⟨hp₂, hp₂info.trans hqinfo⟩

theorem needs_value_consistent (p : AlbumWorkPacket) (fs : AlbumFs)
    (h : CachesConsistent p fs) :
    (p.needs_processing fs).map Prod.fst = needsValueSpec fs := by
  obtain ⟨info, ⟨sv⟩, ⟨fv⟩⟩ := p
  obtain ⟨lr, gr, sr⟩ := fs
  cases sv with
  | some cv =>
    have hl : lr = .ok cv := h.1 cv rfl
    subst hl
    cases cv with
    | none => rfl
    | some saved =>
      cases fv with
      | some m =>
        have hg : gr = .ok m := h.2 m rfl
        subst hg
        rfl
      | none =>
        cases gr with
        | error e => rfl
        | ok fresh => rfl
  | none =>
    cases lr with
    | error e => rfl
    | ok v =>
      cases v with
      | none => rfl
      | some saved =>
        cases fv with
        | some m =>
          have hg : gr = .ok m := h.2 m rfl
          subst hg
          rfl
        | none =>
          cases gr with
          | error e => rfl
          | ok fresh => rfl

theorem work_packets_value_consistent (p : AlbumWorkPacket) (fs : AlbumFs)
    (h : CachesConsistent p fs) :
    (p.get_work_packets fs).map Prod.fst = workPacketsValueSpec fs p.album_info := by
  have hneeds := needs_value_consistent p fs h
  rcases hn : p.needs_processing fs with e | ⟨b, p₁⟩
  · rw [hn] at hneeds
    simp only [Except.map] at hneeds
    unfold workPacketsValueSpec
    rw [← hneeds]
    simp only [AlbumWorkPacket.get_work_packets, hn, Except.map]
  · obtain ⟨hc₁, hinfo₁⟩ := needs_processing_consistent_shape p fs b p₁ h hn
    have hbval : needsValueSpec fs = .ok b := by
      rw [← hneeds, hn]
      rfl
    unfold workPacketsValueSpec
    rw [hbval]
    cases b with
    | false =>
      simp only [AlbumWorkPacket.get_work_packets, hn, Bool.not_false, if_pos]
      rfl
    | true =>
      rcases hf : p₁.get_fresh_meta fs with e | ⟨fresh, p₂⟩
      · have hg := get_fresh_meta_error_consistent p₁ fs e hc₁ hf
        rw [hg]
        simp only [AlbumWorkPacket.get_work_packets, hn, Bool.not_true,
          Bool.false_eq_true, if_false, hf, Except.map]
      · obtain ⟨hg, _, hinfo₂⟩ := get_fresh_meta_consistent_shape p₁ fs fresh p₂ hc₁ hf
        rw [hg]
        simp only [AlbumWorkPacket.get_work_packets, hn, Bool.not_true,
          Bool.false_eq_true, if_false, hf, buildFilePackets_eq, Except.map]
        rw [hinfo₂, hinfo₁]

theorem fresh_packet_reproduces (p : AlbumWorkPacket) (fs : AlbumFs)
    (h : CachesConsistent p fs) :
    ((AlbumWorkPacket.from_album_info p.album_info).needs_processing fs).map Prod.fst
      = (p.needs_processing fs).map Prod.fst ∧
    ((AlbumWorkPacket.from_album_info p.album_info).get_work_packets fs).map Prod.fst
      = (p.get_work_packets fs).map Prod.fst := by
  have h0 : CachesConsistent (AlbumWorkPacket.from_album_info p.album_info) fs :=
    ⟨fun v hv => Option.noConfusion hv, fun m hm => Option.noConfusion hm⟩
  constructor
  · rw [needs_value_consistent _ fs h0, needs_value_consistent p fs h]
  · rw [work_packets_value_consistent _ fs h0, work_packets_value_consistent p fs h]
    rfl

theorem run_album_packets_error (env : FileJobEnv) (job : AlbumJob) (e : IoError)
    (h : job.packet.get_work_packets job.fs = .error e) :
    run_album env job = ([], some (RunFailure.packets_error e)) := by
  unfold run_album
  rw [h]

theorem run_album_after_packets (env : FileJobEnv) (job : AlbumJob)
    (fps : List FileWorkPacket) (p₁ : AlbumWorkPacket)
    (h : job.packet.get_work_packets job.fs = .ok (fps, p₁)) :
    run_album env job =
      (match process_file_packets_in_threadpool env fps with
       | .error errs =>
         ([RunEvent.got_work_packets job.id fps.length],
           some (RunFailure.batch_failed errs))
       | .ok _ =>
         match p₁.save_fresh_meta job.fs true with
         | .error e =>
           ([RunEvent.got_work_packets job.id fps.length, RunEvent.batch_ok job.id],
             some (RunFailure.save_error e))
         | .ok _ =>
           ([RunEvent.got_work_packets job.id fps.length, RunEvent.batch_ok job.id,
             RunEvent.saved_meta job.id], none)) := by
  unfold run_album
  rw [h]
  rfl

theorem run_album_batch_failed (env : FileJobEnv) (job : AlbumJob)
    (fps : List FileWorkPacket) (p₁ : AlbumWorkPacket) (errs : List IoError)
    (h : job.packet.get_work_packets job.fs = .ok (fps, p₁))
    (hfail : process_file_packets_in_threadpool env fps = .error errs) :
    run_album env job =
      ([RunEvent.got_work_packets job.id fps.length],
        some (RunFailure.batch_failed errs)) := by
  rw [run_album_after_packets env job fps p₁ h, hfail]

theorem run_album_events_id (env : FileJobEnv) (job : AlbumJob) :
    ∀ e ∈ (run_album env job).1, e.albumId = job.id := by
  intro e
  rcases h : job.packet.get_work_packets job.fs with er | ⟨fps, p₁⟩
  · rw [run_album_packets_error env job er h]
    intro he
    exact absurd he (List.not_mem_nil e)
  · rw [run_album_after_packets env job fps p₁ h]
    rcases hp : process_file_packets_in_threadpool env fps with errs | u
    · intro he
      have he₁ : e ∈ [RunEvent.got_work_packets job.id fps.length] := he
      rw [List.mem_singleton] at he₁
      rw [he₁]
      rfl
    · rcases hs : p₁.save_fresh_meta job.fs true with er | p₂
      · intro he
        have he₁ : e ∈ [RunEvent.got_work_packets job.id fps.length,
            RunEvent.batch_ok job.id] := he
        rcases List.mem_cons.mp he₁ with h1 | h1
        · rw [h1]
          rfl
        · rw [List.mem_singleton] at h1
          rw [h1]
          rfl
      · intro he
        have he₁ : e ∈ [RunEvent.got_work_packets job.id fps.length,
            RunEvent.batch_ok job.id, RunEvent.saved_meta job.id] := he
        rcases List.mem_cons.mp he₁ with h1 | h1
        · rw [h1]
          rfl
        · rcases List.mem_cons.mp h1 with h2 | h2
          · rw [h2]
            rfl
          · rw [List.mem_singleton] at h2
            rw [h2]
            rfl

theorem run_albums_cons_ok (env : FileJobEnv) (job : AlbumJob)
    (rest : List AlbumJob) (events : List RunEvent)
    (h : run_album env job = (events, none)) :
    run_albums env (job :: rest) =
      (events ++ (run_albums env rest).1, (run_albums env rest).2) := by
  rcases hrest : run_albums env rest with ⟨levs, res⟩
  simp only [run_albums, h, hrest]

theorem run_albums_cons_fail (env : FileJobEnv) (job : AlbumJob)
    (rest : List AlbumJob) (events : List RunEvent) (failure : RunFailure)
    (h : run_album env job = (events, some failure)) :
    run_albums env (job :: rest) = (events, some failure) := by
  unfold run_albums
  rw [h]

theorem run_albums_append_ok (env : FileJobEnv) (pre rest : List AlbumJob)
    (h : ∀ job ∈ pre, (run_album env job).2 = none) :
    run_albums env (pre ++ rest) =
      ((run_albums env pre).1 ++ (run_albums env rest).1,
        (run_albums env rest).2) := by
  induction pre with
  | nil => rfl
  | cons job tail ih =>
    rcases hr : run_album env job with ⟨evs, res⟩
    have hres : res = none := by
      have h0 := h job (List.mem_cons_self ..)
      rw [hr] at h0
      exact h0
    subst hres
    have htail := ih (fun j hm => h j (List.mem_cons_of_mem _ hm))
    rw [List.cons_append, run_albums_cons_ok env job (tail ++ rest) evs hr,
      run_albums_cons_ok env job tail evs hr, htail]
    simp [List.append_assoc]

theorem run_albums_events_id (env : FileJobEnv) (jobs : List AlbumJob) :
    ∀ e ∈ (run_albums env jobs).1, ∃ job ∈ jobs, e.albumId = job.id := by
  induction jobs with
  | nil =>
    intro e he
    exact absurd he (List.not_mem_nil e)
  | cons job rest ih =>
    intro e
    rcases hr : run_album env job with ⟨evs, res⟩
    cases res with
    | some failure =>
      rw [run_albums_cons_fail env job rest evs failure hr]
      intro he
      have hmem : e ∈ (run_album env job).1 := by
        rw [hr]
        exact he
      exact ⟨job, List.mem_cons_self .., run_album_events_id env job e hmem⟩
    | none =>
      rw [run_albums_cons_ok env job rest evs hr]
      intro he
      rcases List.mem_append.mp he with h1 | h1
      · have hmem : e ∈ (run_album env job).1 := by
          rw [hr]
          exact h1
        exact ⟨job, List.mem_cons_self .., run_album_events_id env job e hmem⟩
      · obtain ⟨j, hj, hid⟩ := ih e h1
        exact ⟨j, List.mem_cons_of_mem _ hj, hid⟩

theorem run_libraries_cons_ok (env : FileJobEnv) (lib : List AlbumJob)
    (rest : List (List AlbumJob)) (events : List RunEvent)
    (h : run_albums env lib = (events, none)) :
    run_libraries env (lib :: rest) =
      (events ++ (run_libraries env rest).1, (run_libraries env rest).2) := by
  rcases hrest : run_libraries env rest with ⟨levs, res⟩
  simp only [run_libraries, h, hrest]

theorem run_libraries_cons_fail (env : FileJobEnv) (lib : List AlbumJob)
    (rest : List (List AlbumJob)) (events : List RunEvent) (failure : RunFailure)
    (h : run_albums env lib = (events, some failure)) :
    run_libraries env (lib :: rest) = (events, some failure) := by
  unfold run_libraries
  rw [h]

theorem run_libraries_append_ok (env : FileJobEnv)
    (pre rest : List (List AlbumJob))
    (h : ∀ lib ∈ pre, (run_albums env lib).2 = none) :
    run_libraries env (pre ++ rest) =
      ((run_libraries env pre).1 ++ (run_libraries env rest).1,
        (run_libraries env rest).2) := by
  induction pre with
  | nil => rfl
  | cons lib tail ih =>
    rcases hr : run_albums env lib with ⟨evs, res⟩
    have hres : res = none := by
      have h0 := h lib (List.mem_cons_self ..)
      rw [hr] at h0
      exact h0
    subst hres
    have htail := ih (fun l hm => h l (List.mem_cons_of_mem _ hm))
    rw [List.cons_append, run_libraries_cons_ok env lib (tail ++ rest) evs hr,
      run_libraries_cons_ok env lib tail evs hr, htail]
    simp [List.append_assoc]

theorem run_libraries_events_id (env : FileJobEnv) (libs : List (List AlbumJob)) :
    ∀ e ∈ (run_libraries env libs).1, ∃ lib ∈ libs, ∃ job ∈ lib, e.albumId = job.id := by
  induction libs with
  | nil =>
    intro e he
    exact absurd he (List.not_mem_nil e)
  | cons lib rest ih =>
    intro e
    rcases hr : run_albums env lib with ⟨evs, res⟩
    cases res with
    | some failure =>
      rw [run_libraries_cons_fail env lib rest evs failure hr]
      intro he
      have hmem : e ∈ (run_albums env lib).1 := by
        rw [hr]
        exact he
      obtain ⟨j, hj, hid⟩ := run_albums_events_id env lib e hmem
      exact ⟨lib, List.mem_cons_self .., j, hj, hid⟩
    | none =>
      rw [run_libraries_cons_ok env lib rest evs hr]
      intro he
      rcases List.mem_append.mp he with h1 | h1
      · have hmem : e ∈ (run_albums env lib).1 := by
          rw [hr]
          exact h1
        obtain ⟨j, hj, hid⟩ := run_albums_events_id env lib e hmem
        exact ⟨lib, List.mem_cons_self .., j, hj, hid⟩
      · obtain ⟨l, hl, j, hj, hid⟩ := ih e h1
        exact ⟨l, List.mem_cons_of_mem _ hl, j, hj, hid⟩

/-- C3: in a multi-album run, when an album's batch fails the run ends with
that batch's aggregated failure: `save_fresh_meta` is never invoked for that
album (no `saved_meta` event with its ID appears, given its ID does not also
belong to an earlier album), no album after it in that library and no later
library contributes any event, and - the packet's caches being consistent with
the unchanged filesystem - a fresh packet over the same filesystem reproduces
the identical needs-processing decision and the identical work-packet list
(hence job count). -/
theorem batch_failure_aborts_run (env : FileJobEnv)
    (libsPre : List (List AlbumJob)) (albumsPre : List AlbumJob)
    (bad : AlbumJob) (albumsPost : List AlbumJob) (libsPost : List (List AlbumJob))
    (pkts : List FileWorkPacket) (p₁ : AlbumWorkPacket) (errs : List IoError)
    (hpreLibs : ∀ lib ∈ libsPre, (run_albums env lib).2 = none)
    (hpreAlbums : ∀ job ∈ albumsPre, (run_album env job).2 = none)
    (hbatch : bad.packet.get_work_packets bad.fs = .ok (pkts, p₁))
    (hfail : process_file_packets_in_threadpool env pkts = .error errs)
    (hconsistent : CachesConsistent bad.packet bad.fs) :
    (run_libraries env (libsPre ++ (albumsPre ++ bad :: albumsPost) :: libsPost)).2
        = some (RunFailure.batch_failed errs) ∧
    (bad.id ∉ (libsPre.flatten ++ albumsPre).map AlbumJob.id →
      RunEvent.saved_meta bad.id ∉
        (run_libraries env (libsPre ++ (albumsPre ++ bad :: albumsPost) :: libsPost)).1) ∧
    (∀ e ∈ (run_libraries env (libsPre ++ (albumsPre ++ bad :: albumsPost) :: libsPost)).1,
      e.albumId ∈ (libsPre.flatten ++ albumsPre).map AlbumJob.id ++ [bad.id]) ∧
    ((AlbumWorkPacket.from_album_info bad.packet.album_info).get_work_packets
        bad.fs).map Prod.fst = .ok pkts ∧
    ((AlbumWorkPacket.from_album_info bad.packet.album_info).needs_processing
        bad.fs).map Prod.fst = (bad.packet.needs_processing bad.fs).map Prod.fst := by
  have hbadrun : run_album env bad =
      ([RunEvent.got_work_packets bad.id pkts.length],
        some (RunFailure.batch_failed errs)) :=
    run_album_batch_failed env bad pkts p₁ errs hbatch hfail
  have hmidtail : run_albums env (bad :: albumsPost) =
      ([RunEvent.got_work_packets bad.id pkts.length],
        some (RunFailure.batch_failed errs)) :=
    run_albums_cons_fail env bad albumsPost _ _ hbadrun
  have hmid : run_albums env (albumsPre ++ bad :: albumsPost) =
      ((run_albums env albumsPre).1 ++ [RunEvent.got_work_packets bad.id pkts.length],
        some (RunFailure.batch_failed errs)) := by
    rw [run_albums_append_ok env albumsPre (bad :: albumsPost) hpreAlbums, hmidtail]
  have hall : run_libraries env
      (libsPre ++ (albumsPre ++ bad :: albumsPost) :: libsPost) =
      ((run_libraries env libsPre).1 ++
        ((run_albums env albumsPre).1 ++
          [RunEvent.got_work_packets bad.id pkts.length]),
        some (RunFailure.batch_failed errs)) := by
    rw [run_libraries_append_ok env libsPre
        ((albumsPre ++ bad :: albumsPost) :: libsPost) hpreLibs,
      run_libraries_cons_fail env (albumsPre ++ bad :: albumsPost) libsPost _ _ hmid]
  refine ⟨?_, ?_, ?_, ?_, ?_⟩
  · rw [hall]
  · intro hid hmem
    rw [hall] at hmem
    rcases List.mem_append.mp hmem with h1 | h1
    · obtain ⟨lib, hlib, j, hj, hidj⟩ := run_libraries_events_id env libsPre _ h1
      have hb : bad.id = j.id := hidj
      exact hid (List.mem_map.mpr
        ⟨j, List.mem_append_left _ (List.mem_flatten.mpr ⟨lib, hlib, hj⟩), hb.symm⟩)
    · rcases List.mem_append.mp h1 with h2 | h2
      · obtain ⟨j, hj, hidj⟩ := run_albums_events_id env albumsPre _ h2
        have hb : bad.id = j.id := hidj
        exact hid (List.mem_map.mpr ⟨j, List.mem_append_right _ hj, hb.symm⟩)
      · rw [List.mem_singleton] at h2
        exact RunEvent.noConfusion h2
  · intro e he
    rw [hall] at he
    rcases List.mem_append.mp he with h1 | h1
    · obtain ⟨lib, hlib, j, hj, hidj⟩ := run_libraries_events_id env libsPre e h1
      exact List.mem_append_left _ (List.mem_map.mpr
        ⟨j, List.mem_append_left _ (List.mem_flatten.mpr ⟨lib, hlib, hj⟩), hidj.symm⟩)
    · rcases List.mem_append.mp h1 with h2 | h2
      · obtain ⟨j, hj, hidj⟩ := run_albums_events_id env albumsPre e h2
        exact List.mem_append_left _
          (List.mem_map.mpr ⟨j, List.mem_append_right _ hj, hidj.symm⟩)
      · rw [List.mem_singleton] at h2
        rw [h2]
        exact List.mem_append_right _ (List.mem_singleton.mpr rfl)
  · have hrep := (fresh_packet_reproduces bad.packet bad.fs hconsistent).2
    rw [hbatch] at hrep
    simp only [Except.map] at hrep
    exact hrep
  · exact (fresh_packet_reproduces bad.packet bad.fs hconsistent).1

/-- Witness for C3: in a run holding only the three-file album whose first
file's job fails, the run ends with the aggregated batch failure, the album's
snapshot is never persisted, and a fresh packet over the same filesystem
reproduces the same three work packets. -/
theorem batch_failure_aborts_run_witness :
    (run_libraries dispatchAbortEnv [[threeFileJob]]).2 =
      some (RunFailure.batch_failed ["job failed"]) ∧
    RunEvent.saved_meta 3 ∉ (run_libraries dispatchAbortEnv [[threeFileJob]]).1 ∧
    ((AlbumWorkPacket.from_album_info sampleInfo).get_work_packets threeFileFs).map
      Prod.fst = .ok threeFilePackets :=
  have h := batch_failure_aborts_run dispatchAbortEnv [] [] threeFileJob [] []
    threeFilePackets threeFilePacketCached ["job failed"]
    (fun _ hm => absurd hm (List.not_mem_nil _))
    (fun _ hm => absurd hm (List.not_mem_nil _)) rfl rfl
    ⟨fun v hv => Option.noConfusion hv, fun m hm => Option.noConfusion hm⟩
  ⟨h.1, h.2.1 (by simp), h.2.2.2.1⟩

end Euphony
